import Mathlib

set_option autoImplicit false

namespace Jsernews

/-! # JavaScript values and primitives used by `app.js` and `utils.js`

A number value is an IEEE 754 double. Finite numbers are held exactly: an
integer value as `num n`, a non-integer value as `frac m k` (the dyadic
rational `m / 2 ^ k`). Every arithmetic result is rounded to the nearest double,
ties to even. Strings are Lean strings; the string algorithms work on the
character list. -/

/-- The values handled by the modelled code: a finite number with an integer
value, a string, a finite number with the non-integer value `m / 2 ^ k`, an
infinity, `NaN`. Negative zero is identified with zero: no operation modelled
here tells them apart. -/
inductive JSVal where
  | num (n : Int)
  | str (s : String)
  | frac (m : Int) (k : Nat)
  | inf (negative : Bool)
  | nan
  deriving DecidableEq, Repr

/-- White space and line terminators of ECMAScript (`String.prototype.trim`,
`parseInt`, string to number conversion). -/
def isJSSpace (c : Char) : Bool :=
  c.toNat ∈ [0x09, 0x0A, 0x0B, 0x0C, 0x0D, 0x20, 0xA0, 0x1680, 0x2000, 0x2001, 0x2002,
    0x2003, 0x2004, 0x2005, 0x2006, 0x2007, 0x2008, 0x2009, 0x200A, 0x2028, 0x2029,
    0x202F, 0x205F, 0x3000, 0xFEFF]

/-- `String.prototype.trim` on the character list: white space is removed from
both ends. -/
def trimChars (l : List Char) : List Char :=
  (l.dropWhile isJSSpace).rdropWhile isJSSpace

/-- `String.prototype.trim`. -/
def jsTrim (s : String) : String := String.mk (trimChars s.data)

/-! ## Rounding to a double -/

/-- Position of the highest binary digit: `floor (log2 n)` for `n > 0`. -/
def bitLog (n : Nat) : Nat := (Nat.toDigits 2 n).length - 1

/-- The test `2 ^ e ≤ p / q`. -/
def geTwoPow (p q : Nat) (e : Int) : Bool :=
  if 0 ≤ e then decide (q * 2 ^ e.toNat ≤ p) else decide (q ≤ p * 2 ^ (-e).toNat)

/-- The binary exponent of `p / q`: the `e` with `2 ^ e ≤ p / q < 2 ^ (e + 1)`,
for positive `p` and `q`. -/
def ratLog2 (p q : Nat) : Int :=
  let e0 : Int := (bitLog p : Int) - (bitLog q : Int)
  if geTwoPow p q e0 then e0 else e0 - 1

/-- The integer nearest to `P / Q`, the even one at a tie. -/
def roundHalfEven (P Q : Nat) : Nat :=
  let d := P / Q
  let r := P % Q
  if 2 * r < Q then d else if Q < 2 * r then d + 1 else if d % 2 = 0 then d else d + 1

/-- The integer `n` or `-n`. -/
def signed (negative : Bool) (n : Nat) : Int := if negative then - (n : Int) else n

/-- The number value `± m * 2 ^ g`: an infinity from `2 ^ 1024` on, otherwise
stored in lowest terms. -/
def ofDyadic (negative : Bool) (m : Nat) (g : Int) : JSVal :=
  if m = 0 then .num 0
  else if 0 ≤ g then
    if 1024 ≤ (bitLog m : Int) + g then .inf negative
    else .num (signed negative (m * 2 ^ g.toNat))
  else
    let k := (-g).toNat
    let d := Nat.gcd m (2 ^ k)
    let k' := k - bitLog d
    if k' = 0 then .num (signed negative (m / d)) else .frac (signed negative (m / d)) k'

/-- The double nearest to `± p / q` (`q > 0`), ties to even: 53 significant
binary digits, the exponent not below that of the subnormal numbers. -/
def roundRat (negative : Bool) (p q : Nat) : JSVal :=
  if p = 0 then .num 0
  else
    let e := max (ratLog2 p q) (-1022)
    let g := e - 52
    let m :=
      if 0 ≤ g then roundHalfEven p (q * 2 ^ g.toNat)
      else roundHalfEven (p * 2 ^ (-g).toNat) q
    ofDyadic negative m g

/-- The number value of the rational `n / d` (`d > 0`). An integer of magnitude
up to `2 ^ 53` is a double and is kept as it is; anything else is rounded. -/
def ofRat (n : Int) (d : Nat) : JSVal :=
  if d = 1 ∧ n.natAbs ≤ 9007199254740992 then .num n
  else roundRat (decide (n < 0)) n.natAbs d

/-- The number value of what `parseInt` has read: `NaN`, or the double nearest
to the integer. -/
def numberOf : Option Int → JSVal
  | none => .nan
  | some n => ofRat n 1

/-! ## Printing a number -/

/-- The test `10 ^ e ≤ p / q`. -/
def geTenPow (p q : Nat) (e : Int) : Bool :=
  if 0 ≤ e then decide (q * 10 ^ e.toNat ≤ p) else decide (q ≤ p * 10 ^ (-e).toNat)

/-- The decimal exponent of `p / q`: the `n` with
`10 ^ (n - 1) ≤ p / q < 10 ^ n`, for positive `p` and `q`. -/
def decExp (p q : Nat) : Int :=
  let e0 : Int := ((Nat.toDigits 10 p).length : Int) - ((Nat.toDigits 10 q).length : Int)
  if geTenPow p q e0 then e0 + 1 else e0

/-- The `k`-digit integer `s` for which `s * 10 ^ (n - k)` rounds back to the
double `p / q`, if there is one; of two, the one nearer to `p / q`. -/
def digitsAt (p q : Nat) (n : Int) (k : Nat) : Option Nat :=
  let j := n - k
  let P := if 0 ≤ j then p else p * 10 ^ (-j).toNat
  let Q := if 0 ≤ j then q * 10 ^ j.toNat else q
  let lo := P / Q
  let r := P % Q
  let hi := lo + 1
  let back (s : Nat) : Bool :=
    (if 0 ≤ j then roundRat false (s * 10 ^ j.toNat) 1 else roundRat false s (10 ^ (-j).toNat))
      = roundRat false p q
  if back lo && back hi then
    if 2 * r < Q then some lo else if Q < 2 * r then some hi
    else if lo % 2 = 0 then some lo else some hi
  else if back lo then some lo
  else if back hi then some hi
  else none

/-- The digits and decimal exponent with which `Number::toString` prints the
positive double `p / q`: the shortest digit string that rounds back to it (17
digits always do), without trailing zeros. -/
def shortestDigits (p q : Nat) : List Char × Int :=
  let n := decExp p q
  let found :=
    (List.range 17).findSome? (fun i => (digitsAt p q n (i + 1)).map (fun s => (s, i + 1)))
  let sk : Nat × Nat :=
    match found with
    | some sk => sk
    | none =>
      ((if 0 ≤ n - 17 then p / (q * 10 ^ (n - 17).toNat) else p * 10 ^ (17 - n).toNat / q), 17)
  let ds := Nat.toDigits 10 sk.1
  (ds.rdropWhile (fun c => c = '0'), if sk.2 < ds.length then n + 1 else n)

/-- The layout of `Number::toString`: plain digits up to 21 integer digits, a
decimal point inside or after `0.` down to `1e-6`, exponent form otherwise. -/
def formatDigits (ds : List Char) (n : Int) : List Char :=
  let k : Int := ds.length
  if k ≤ n ∧ n ≤ 21 then ds ++ List.replicate (n - k).toNat '0'
  else if 0 < n ∧ n ≤ 21 then ds.take n.toNat ++ '.' :: ds.drop n.toNat
  else if -6 < n ∧ n ≤ 0 then '0' :: '.' :: List.replicate (-n).toNat '0' ++ ds
  else
    let e := n - 1
    let es := (if e < 0 then '-' else '+') :: Nat.toDigits 10 e.natAbs
    match ds with
    | [d] => d :: 'e' :: es
    | d :: rest => d :: '.' :: rest ++ 'e' :: es
    | [] => []

/-- `Number::toString` on the finite non-zero double `± p / q`. -/
def finiteToString (negative : Bool) (p q : Nat) : String :=
  let r := shortestDigits p q
  String.mk ((if negative then ['-'] else []) ++ formatDigits r.1 r.2)

/-- `ToString`: a string is itself; an integer of magnitude up to `2 ^ 53`
prints as its decimal expansion (its shortest digit string that rounds back is
that expansion without its trailing zeros, which the layout restores); other
finite numbers go through `Number::toString` in full. -/
def jsToString : JSVal → String
  | .num n =>
    if n.natAbs ≤ 9007199254740992 then toString n
    else finiteToString (decide (n < 0)) n.natAbs 1
  | .str s => s
  | .frac m k => finiteToString (decide (m < 0)) m.natAbs (2 ^ k)
  | .inf negative => if negative then "-Infinity" else "Infinity"
  | .nan => "NaN"

/-! ## Reading a number -/

/-- Value of a run of decimal digits. -/
def digitsValue (l : List Char) : Nat :=
  l.foldl (fun acc c => acc * 10 + (c.toNat - 48)) 0

/-- Value of one hexadecimal digit. -/
def hexDigit (c : Char) : Option Nat :=
  if c.isDigit then some (c.toNat - 48)
  else if 97 ≤ c.toNat ∧ c.toNat ≤ 102 then some (c.toNat - 87)
  else if 65 ≤ c.toNat ∧ c.toNat ≤ 70 then some (c.toNat - 55)
  else none

/-- Value of a run of hexadecimal digits. -/
def hexValue (l : List Char) : Nat :=
  l.foldl (fun acc c => acc * 16 + (hexDigit c).getD 0) 0

/-- The unsigned part of `parseInt` without a radix argument: a `0x`/`0X` marker
selects base sixteen, otherwise base ten; the longest run of digits is read and
the rest ignored; no digit at all gives `NaN`. -/
def parseMagnitude : List Char → Option Nat
  | '0' :: 'x' :: rest | '0' :: 'X' :: rest =>
    let z := rest.takeWhile (fun c => (hexDigit c).isSome)
    if z.isEmpty then none else some (hexValue z)
  | l =>
    let z := l.takeWhile Char.isDigit
    if z.isEmpty then none else some (digitsValue z)

/-- `parseInt(string)`: leading white space is skipped, then an optional sign,
then the magnitude. -/
def parseIntChars (l : List Char) : Option Int :=
  match l.dropWhile isJSSpace with
  | '-' :: rest => (parseMagnitude rest).map (fun m => - (m : Int))
  | '+' :: rest => (parseMagnitude rest).map (fun m => (m : Int))
  | rest => (parseMagnitude rest).map (fun m => (m : Int))

/-- `parseInt(v)`: the argument is first converted to a string; the result is
the integer read, `none` for `NaN`. -/
def parseInt (v : JSVal) : Option Int :=
  parseIntChars (jsToString v).data

/-- Value of a run of digits in a base up to sixteen; `none` if the run is
empty or holds a character that is not a digit of the base. -/
def radixValue (base : Nat) (l : List Char) : Option Nat :=
  if l.isEmpty then none
  else l.foldl (fun acc c =>
    match acc, hexDigit c with
    | some a, some d => if d < base then some (a * base + d) else none
    | _, _ => none) (some 0)

/-- The exponent part of a decimal literal: nothing, or `e`/`E`, an optional
sign and at least one digit; `none` if what is left is anything else. -/
def exponentPart : List Char → Option Int
  | [] => some 0
  | c :: r =>
    if c = 'e' ∨ c = 'E' then
      let ds := match r with
        | '-' :: ds => ds
        | '+' :: ds => ds
        | ds => ds
      if ds.isEmpty ∨ ¬ ds.all Char.isDigit then none
      else match r with
        | '-' :: _ => some (- (digitsValue ds : Int))
        | _ => some (digitsValue ds : Int)
    else none

/-- The value `p / q` of an unsigned decimal literal: digits, an optional point
and digits (at least one digit in all), an optional exponent part. -/
def unsignedDecimal (l : List Char) : Option (Nat × Nat) :=
  let ip := l.takeWhile Char.isDigit
  let r1 := l.dropWhile Char.isDigit
  let fp := match r1 with
    | '.' :: r => r.takeWhile Char.isDigit
    | _ => []
  let r2 := match r1 with
    | '.' :: r => r.dropWhile Char.isDigit
    | _ => r1
  if ip.isEmpty ∧ fp.isEmpty then none
  else
    match exponentPart r2 with
    | none => none
    | some ex =>
      let e10 : Int := ex - fp.length
      let mant := digitsValue (ip ++ fp)
      if 0 ≤ e10 then some (mant * 10 ^ e10.toNat, 1) else some (mant, 10 ^ (-e10).toNat)

/-- String to number conversion: surrounding white space is dropped; the empty
string is `0`; a `0x`, `0o` or `0b` literal is read in its base; otherwise an
optional sign is followed by `Infinity` or a decimal literal; anything else is
`NaN`. The value is rounded to a double. -/
def stringToNumber (s : String) : JSVal :=
  let unsignedInt (v : Option Nat) : JSVal :=
    match v with
    | some n => ofRat n 1
    | none => .nan
  match trimChars s.data with
  | [] => .num 0
  | '0' :: 'x' :: r | '0' :: 'X' :: r => unsignedInt (radixValue 16 r)
  | '0' :: 'o' :: r | '0' :: 'O' :: r => unsignedInt (radixValue 8 r)
  | '0' :: 'b' :: r | '0' :: 'B' :: r => unsignedInt (radixValue 2 r)
  | t =>
    let negative := match t with
      | '-' :: _ => true
      | _ => false
    let u := match t with
      | '-' :: r => r
      | '+' :: r => r
      | r => r
    if u = "Infinity".data then .inf negative
    else match unsignedDecimal u with
      | none => .nan
      | some (p, q) => ofRat (signed negative p) q

/-- `ToNumber`. -/
def toNumber : JSVal → JSVal
  | .str s => stringToNumber s
  | v => v

/-! ## Arithmetic and comparison -/

/-- A finite number as numerator and denominator. -/
def ratOf : JSVal → Option (Int × Nat)
  | .num n => some (n, 1)
  | .frac m k => some (m, 2 ^ k)
  | _ => none

/-- The sum of two number values. -/
def addNumbers (x y : JSVal) : JSVal :=
  match x, y with
  | .nan, _ => .nan
  | _, .nan => .nan
  | .inf a, .inf b => if a = b then .inf a else .nan
  | .inf a, _ => .inf a
  | _, .inf b => .inf b
  | x, y =>
    match ratOf x, ratOf y with
    | some (a, b), some (c, d) => ofRat (a * d + c * b) (b * d)
    | _, _ => .nan

/-- The opposite of a number value. -/
def negNumber : JSVal → JSVal
  | .num n => .num (-n)
  | .frac m k => .frac (-m) k
  | .inf negative => .inf (!negative)
  | v => v

/-- The `+` operator: string concatenation as soon as one operand is a string,
the sum of the two numbers otherwise. -/
def jsAdd (x y : JSVal) : JSVal :=
  match x, y with
  | .str a, _ => .str (a ++ jsToString y)
  | _, .str b => .str (jsToString x ++ b)
  | _, _ => addNumbers x y

/-- The `-` operator: both operands are converted to numbers. -/
def jsSub (x y : JSVal) : JSVal :=
  addNumbers (toNumber x) (negNumber (toNumber y))

/-- The `/` operator: both operands are converted to numbers. -/
def jsDiv (x y : JSVal) : JSVal :=
  match toNumber x, toNumber y with
  | .nan, _ => .nan
  | _, .nan => .nan
  | .inf _, .inf _ => .nan
  | .inf a, y => .inf (a != (match y with | .num n => decide (n < 0) | .frac m _ => decide (m < 0) | _ => false))
  | _, .inf _ => .num 0
  | x, y =>
    match ratOf x, ratOf y with
    | some (a, b), some (c, d) =>
      if c = 0 then (if a = 0 then .nan else .inf (decide (a < 0)))
      else ofRat (if c < 0 then -(a * d) else a * d) (b * c.natAbs)
    | _, _ => .nan

/-- The comparison `v < k` against the integer `k`; `NaN` gives `false`. -/
def jsLtNum (v : JSVal) (k : Int) : Bool :=
  match toNumber v with
  | .num n => decide (n < k)
  | .frac m e => decide (m < k * 2 ^ e)
  | .inf negative => negative
  | _ => false

/-- The comparison `v <= k` against the integer `k`; `NaN` gives `false`. -/
def jsLeNum (v : JSVal) (k : Int) : Bool :=
  match toNumber v with
  | .num n => decide (n ≤ k)
  | .frac m e => decide (m ≤ k * 2 ^ e)
  | .inf negative => negative
  | _ => false

/-- The comparison `v >= k` against the integer `k`; `NaN` gives `false`. -/
def jsGeNum (v : JSVal) (k : Int) : Bool :=
  match toNumber v with
  | .num n => decide (k ≤ n)
  | .frac m e => decide (k * 2 ^ e ≤ m)
  | .inf negative => !negative
  | _ => false

/-- The comparison `v > k` against the integer `k`; `NaN` gives `false`. -/
def jsGtNum (v : JSVal) (k : Int) : Bool :=
  match toNumber v with
  | .num n => decide (k < n)
  | .frac m e => decide (k * 2 ^ e < m)
  | .inf negative => !negative
  | _ => false

/-- `ToString` of the integer read by `parseInt`, or of `NaN`. -/
def numToString : Option Int → String
  | some n => toString n
  | none => "NaN"

/-- `template.replace("$", rep)`: the first `$` of the template is replaced;
later ones stay. The replacement text is inserted literally (it is a printed
number here, which holds no `$` pattern). -/
def replaceDollar (rep : List Char) : List Char → List Char
  | [] => []
  | c :: cs => if c = '$' then rep ++ cs else c :: replaceDollar rep cs

/-! # `app.js`: the show-more paginator -/

/-- The part of the external `html5-gen` generator (`$h`) that the modelled
code calls: `a` builds an anchor from its `href` and `class` attributes and its
body, `p` a paragraph, `page` a whole page. -/
structure HTMLGen where
  a : (href : String) → (cls : String) → (body : String) → String
  p : String → String
  page : String → String

/-- The argument hash of `listItems`: `get` is the awaited accessor, which
either rejects or yields the list of elements and the total amount. -/
structure Paginate (α : Type) where
  get : JSVal → JSVal → Except String (List α × Int)
  render : α → String
  start : JSVal
  perpage : JSVal
  link : String

/-- What one run of `listItems` does: the accessor calls it made, in order, with
their arguments, and the value it returned or the error it threw. -/
structure Listing where
  calls : List (JSVal × JSVal)
  result : Except String String

/-- Model of `listItems` in `app.js`. -/
def listItems {α : Type} (h : HTMLGen) (o : Paginate α) : Listing :=
  let aux := ""
  let start := if jsLtNum o.start 0 then JSVal.num 0 else o.start
  match o.get start o.perpage with
  | .error e => ⟨[(start, o.perpage)], .error e⟩
  | .ok (items, count) =>
    let aux := items.foldl (fun aux n => aux ++ o.render n) aux
    let last_displayed := numberOf (parseInt (jsAdd start o.perpage))
    if jsLtNum last_displayed count then
      let nextpage := String.mk (replaceDollar (jsToString last_displayed).data o.link.data)
      ⟨[(start, o.perpage)], .ok (aux ++ h.a nextpage "more" "[more]")⟩
    else
      ⟨[(start, o.perpage)], .ok aux⟩

/-- The paginated part of `app.get('/latest/:start')`: `start` is the path
segment as it stands in `req.params`; `latestNewsPerPage` comes from the
configuration, `getLatestNews` and `newsToHTML` from the news module. -/
def getLatestStart {α : Type} (h : HTMLGen) (latestNewsPerPage : Int)
    (getLatestNews : JSVal → JSVal → Except String (List α × Int))
    (newsToHTML : α → String) (start : String) : Listing :=
  listItems h
    { get := fun start count => getLatestNews start count
      render := fun item => newsToHTML item
      start := .str start
      perpage := .num latestNewsPerPage
      link := "/latest/$" }

/-- The paginated part of `app.get('/saved/:start')` for a logged-in user:
`start` is converted with unary `+` first, and a `NaN` start leaves the route
(`none`). -/
def getSavedStart {α : Type} (h : HTMLGen) (savedNewsPerPage : Int)
    (getSavedNews : JSVal → JSVal → Except String (List α × Int))
    (newsToHTML : α → String) (start : String) : Option Listing :=
  match toNumber (.str start) with
  | .nan => none
  | start =>
    some (listItems h
      { get := fun start count => getSavedNews start count
        render := fun item => newsToHTML item
        start := start
        perpage := .num savedNewsPerPage
        link := "/saved/$" })

/-- A concrete generator, used to evaluate the handlers on examples. -/
def plainGen : HTMLGen where
  a := fun href cls body => "<a href=\"" ++ href ++ "\" class=\"" ++ cls ++ "\">" ++ body ++ "</a>"
  p := fun body => "<p>" ++ body ++ "</p>"
  page := fun body => "<html>" ++ body ++ "</html>"

/-- An accessor over the collection `0, 1, ..., total - 1`: the window of
`count` elements from `start` on, and the total. -/
def rangeAccessor (total : Nat) (start count : JSVal) : Except String (List Nat × Int) :=
  match toNumber start, toNumber count with
  | .num s, .num c => .ok (List.range' s.toNat (min c.toNat (total - s.toNat)), total)
  | _, _ => .error "bad window"

/-- Renderer for the example collection. -/
def renderNat (n : Nat) : String := "<" ++ toString n ++ ">"

/-! # `app.js`: the recompute job -/

/-- The part of the Redis store the recompute job touches. `cron` is the
member list of the sorted set `news.cron` as `zrange 0 -1` returns it, `hashes`
maps a key and a field to the value stored there, `top` maps a member of the
sorted set `news.top` to its score. Values of type `V` stand for the stored
scores and ranks. -/
structure Store (V : Type) where
  cron : List String
  hashes : String → String → Option V
  top : String → Option V

/-- `$r.hmset(key, f1, v1, f2, v2)`: sets the two fields of the hash at `key`,
the second after the first. -/
def hmset {V : Type} (s : Store V) (key f1 : String) (v1 : V) (f2 : String) (v2 : V) :
    Store V :=
  { s with hashes := fun k f =>
      if k = key then
        if f = f2 then some v2 else if f = f1 then some v1 else s.hashes k f
      else s.hashes k f }

/-- `$r.zadd('news.top', score, member)`: inserts the member or moves it to the
new score. -/
def zaddTop {V : Type} (s : Store V) (score : V) (member : String) : Store V :=
  { s with top := fun m => if m = member then some score else s.top m }

/-- The functions of the news module called by the job (the module itself is
not part of the modelled files): `getNewsById` and `computeNewsScore` are
awaited, they read the store and may fail; `computeNewsRank` is a plain call on
the record that was read. `N` is the type of a news record. -/
structure NewsModule (N V : Type) where
  getNewsById : Store V → String → Except String N
  computeNewsScore : Store V → N → Except String V
  computeNewsRank : N → Except String V

/-- The first three statements of the loop body: read the record, compute its
score and its rank. -/
def scoreRank {N V : Type} (m : NewsModule N V) (s : Store V) (news_id : String) :
    Except String (V × V) :=
  match m.getNewsById s news_id with
  | .error e => .error e
  | .ok news =>
    match m.computeNewsScore s news with
    | .error e => .error e
    | .ok score =>
      match m.computeNewsRank news with
      | .error e => .error e
      | .ok rank => .ok (score, rank)

/-- The last two statements of the loop body: persist score and rank on the
record `news:<id>` and re-key the member in `news.top`. -/
def writeItem {V : Type} (s : Store V) (news_id : String) (score rank : V) : Store V :=
  zaddTop (hmset s ("news:" ++ news_id) "score" score "rank" rank) rank news_id

/-- State of a walk: the store, the visits made so far in order (id, score and
rank computed at the visit), and the error that stopped the walk, if any. -/
structure Walk (V : Type) where
  store : Store V
  visits : List (String × V × V)
  error : Option String

/-- The `for (let news_id of range)` loop of `/recompute`: an exception in the
body leaves the loop (nothing in the handler catches it). -/
def recomputeLoop {N V : Type} (m : NewsModule N V) : List String → Store V → Walk V
  | [], s => ⟨s, [], none⟩
  | news_id :: rest, s =>
    match scoreRank m s news_id with
    | .error e => ⟨s, [], some e⟩
    | .ok (score, rank) =>
      let w := recomputeLoop m rest (writeItem s news_id score rank)
      ⟨w.store, (news_id, score, rank) :: w.visits, w.error⟩

/-- What a handler answers. -/
inductive Response where
  | redirect (url : String)
  | send (body : String)
  deriving DecidableEq, Repr

/-- One run of a handler on the store: the store it leaves, the visits of its
walk, and its answer, or the error it ended with. -/
structure Run (V : Type) where
  store : Store V
  visits : List (String × V × V)
  result : Except String Response

/-- Model of `app.get('/recompute')`. `user` is the authenticated user if any,
`isAdmin` the test of the user module. -/
def recompute {N V U : Type} (h : HTMLGen) (m : NewsModule N V) (isAdmin : U → Bool)
    (user : Option U) (s : Store V) : Run V :=
  match user with
  | none => ⟨s, [], .ok (.redirect "/")⟩
  | some u =>
    if !isAdmin u then ⟨s, [], .ok (.redirect "/")⟩
    else
      let range := s.cron
      let w := recomputeLoop m range s
      match w.error with
      | some e => ⟨w.store, w.visits, .error e⟩
      | none => ⟨w.store, w.visits, .ok (.send (h.page (h.p "Done.")))⟩

/-- A news module over integer values: a record is the pair of the `up` field
and the stored `score` field of the hash `news:<id>`; a missing field makes the
read fail; the score is the `up` count, the rank is derived from the score the
record carried when it was read. -/
def storedScoreModule : NewsModule (Int × Int) Int where
  getNewsById := fun s news_id =>
    match s.hashes ("news:" ++ news_id) "up", s.hashes ("news:" ++ news_id) "score" with
    | some up, some score => .ok (up, score)
    | _, _ => .error "TypeError: Cannot read property of null"
  computeNewsScore := fun _ news => .ok news.1
  computeNewsRank := fun news => .ok (2 * news.2)

/-- A news module over integer values whose score and rank are both derived
from the `up` field only. -/
def votesModule : NewsModule Int Int where
  getNewsById := fun s news_id =>
    match s.hashes ("news:" ++ news_id) "up" with
    | some up => .ok up
    | none => .error "TypeError: Cannot read property of null"
  computeNewsScore := fun _ up => .ok up
  computeNewsRank := fun up => .ok (2 * up)

/-- An example store: the given ids are indexed in `news.cron`; each id of
`live` has a record with 5 `up` votes and a stale score and rank of 0; `news.top` holds rank 0 for them. -/
def exampleStore (cron live : List String) : Store Int where
  cron := cron
  hashes := fun k f =>
    match live.find? (fun i => "news:" ++ i = k) with
    | some _ => if f = "up" then some 5 else if f = "score" ∨ f = "rank" then some 0 else none
    | none => none
  top := fun m => if m ∈ live then some 0 else none

/-! # `app.js`: the random picker -/

/-- One run of `app.get('/random')`: the number bound to `random` (`none` for
`NaN`), the keys passed to `$r.exists`, in order, and the answer. -/
structure RandomRun where
  random : Option Int
  checks : List String
  result : Response
  deriving DecidableEq

/-- Model of `app.get('/random')`. `counter` is the string read at `news.count`,
`_random` the outcome of `_.random` for its argument, `rExists` the truth value
of `$r.exists` for a key. -/
def getRandom (counter : String) (_random : Int → Int) (rExists : String → Bool) :
    RandomRun :=
  let random := (parseInt (.str counter)).map (fun n => 1 + _random n)
  let key := "news:" ++ numToString random
  ⟨random, [key],
    .redirect (if rExists key then "/news/" ++ numToString random else "/news/" ++ counter)⟩

/-! # `utils.js`: `checkParams` -/

/-- The values a request parameter can hold: absent (`undefined`), `null`, a
boolean, a number, a string, or an array or object. -/
inductive ParamVal where
  | undefined
  | null
  | bool (b : Bool)
  | num (n : Int)
  | str (s : String)
  | obj
  deriving DecidableEq, Repr

/-- Truthiness (`ToBoolean`). -/
def truthy : ParamVal → Bool
  | .undefined => false
  | .null => false
  | .bool b => b
  | .num n => decide (n ≠ 0)
  | .str s => decide (s ≠ "")
  | .obj => true

/-- The test `typeof v == 'string'`. -/
def isString : ParamVal → Bool
  | .str _ => true
  | _ => false

/-- The `trim` method on a value that is a string; other values are never
passed to it by `checkParams` and are left as they are. -/
def trimVal : ParamVal → ParamVal
  | .str s => .str (jsTrim s)
  | v => v

/-- Model of `checkParams(params, ...required)` in `utils.js`: `params` maps a
name to its value (`undefined` when the name is missing); the object is
modified in place, so the run returns the final object with the answer. -/
def checkParams (params : String → ParamVal) : List String → (String → ParamVal) × Bool
  | [] => (params, true)
  | p :: required =>
    let params :=
      if truthy (params p) && isString (params p) then
        fun q => if q = p then trimVal (params p) else params q
      else params
    if !truthy (params p) then (params, false)
    else checkParams params required

/-- A parameter object given by its entries; the first entry of a name counts. -/
def paramsOf (entries : List (String × ParamVal)) (name : String) : ParamVal :=
  match entries.find? (fun e => e.1 = name) with
  | some e => e.2
  | none => .undefined

/-! # `utils.js`: `numElapsed` and `strElapsed` -/

/-- The expression `parseInt(x / y)`. For integers `a` and `b` with
`|a| < 2 ^ 53` and `0 < |b| ≤ 10 ^ 6` the result is the quotient truncated toward
zero: the double nearest to `a / b` is off by less than `1 / |b|`, so it lies
strictly between the same two integers as `a / b` unless `b` divides `a`; it is
zero or at least `1e-6` in magnitude, so it prints in positional form, integer
part first, and `parseInt` reads that part. Every other case goes through the
division, the printing and the reading in full. -/
def parseIntQuot (x y : JSVal) : JSVal :=
  match x, y with
  | .num a, .num b =>
    if b ≠ 0 ∧ a.natAbs < 9007199254740992 ∧ b.natAbs ≤ 1000000 then .num (Int.tdiv a b)
    else numberOf (parseInt (jsDiv x y))
  | _, _ => numberOf (parseInt (jsDiv x y))

/-- Model of `numElapsed` in `utils.js`. `dateNow` is the value of `Date.now()`,
in milliseconds; `t` is `none` when the argument is left out and a number of
milliseconds otherwise (`0` is falsy and is kept as `ms`; a time value outside
the range of `Date` makes `getTime()` return `NaN`). -/
def numElapsed (dateNow : Int) (t : Option Int) : JSVal :=
  let ms :=
    match t with
    | none => dateNow
    | some t =>
      if t = 0 then 0
      else if t.natAbs ≤ 8640000000000000 then t
      else dateNow
  parseIntQuot (.num ms) (.num 1000)

/-- The table `time_lengths` of `strElapsed`. -/
def time_lengths : List (Int × String) :=
  [(86400, "day"), (3600, "hour"), (60, "minute"), (1, "second")]

/-- Model of `strElapsed` in `utils.js`. `dateNow` is the value of `Date.now()`;
`t` is the argument. Destructuring the first element of an empty filter result
throws. -/
def strElapsed (dateNow : Int) (t : JSVal) : Except String String :=
  let seconds := numberOf (parseInt (jsSub (numElapsed dateNow none) t))
  if jsLeNum seconds 1 then .ok "now"
  else
    match time_lengths.filter (fun item => jsGeNum seconds item.1) with
    | [] => .error "TypeError: undefined is not iterable"
    | (length, label) :: _ =>
      let units := parseIntQuot seconds (.num length)
      .ok (jsToString units ++ " " ++ label ++ (if jsGtNum units 1 then "s" else "") ++ " ago")

/-! ## Decimal printing and `parseInt` agree -/

theorem digitChar_isDigit (d : Nat) (h : d < 10) : (Nat.digitChar d).isDigit = true := by
  interval_cases d <;> rfl

theorem digitChar_toNat (d : Nat) (h : d < 10) : (Nat.digitChar d).toNat - 48 = d := by
  interval_cases d <;> rfl

theorem digitsValue_cons (c : Char) (l : List Char) :
    digitsValue (c :: l) = (c.toNat - 48) * 10 ^ l.length + digitsValue l := by
  unfold digitsValue
  suffices H : ∀ (l : List Char) (a : Nat),
      l.foldl (fun acc c => acc * 10 + (c.toNat - 48)) a
        = a * 10 ^ l.length + l.foldl (fun acc c => acc * 10 + (c.toNat - 48)) 0 by
    simp only [List.foldl_cons, Nat.zero_mul, Nat.zero_add]
    exact H l _
  intro l
  induction l using List.reverseRecOn with
  | nil => intro a; simp
  | append_singleton l c ih =>
    intro a
    simp only [List.foldl_append, List.foldl_cons, List.foldl_nil, List.length_append,
      List.length_singleton]
    rw [ih a]
    ring

theorem toDigitsCore_spec (f : Nat) : ∀ (n : Nat) (acc : List Char), n < f →
    (∀ c ∈ acc, c.isDigit = true) →
    Nat.toDigitsCore 10 f n acc ≠ [] ∧
    (∀ c ∈ Nat.toDigitsCore 10 f n acc, c.isDigit = true) ∧
    digitsValue (Nat.toDigitsCore 10 f n acc) = n * 10 ^ acc.length + digitsValue acc := by
  induction f with
  | zero => intro n acc h; omega
  | succ f ih =>
    intro n acc hn hacc
    have hd : n % 10 < 10 := Nat.mod_lt _ (by decide)
    have hacc' : ∀ c ∈ Nat.digitChar (n % 10) :: acc, c.isDigit = true := by
      intro c hc
      rcases List.mem_cons.mp hc with rfl | hc
      · exact digitChar_isDigit _ hd
      · exact hacc c hc
    simp only [Nat.toDigitsCore]
    by_cases h0 : n / 10 = 0
    · simp only [h0, if_true]
      refine ⟨List.cons_ne_nil _ _, hacc', ?_⟩
      rw [digitsValue_cons, digitChar_toNat _ hd]
      have : n % 10 = n := by omega
      rw [this]
    · simp only [h0, if_false]
      have hlt : n / 10 < f := by omega
      obtain ⟨hne, h1, h2⟩ := ih (n / 10) _ hlt hacc'
      refine ⟨hne, h1, ?_⟩
      rw [h2, digitsValue_cons, digitChar_toNat _ hd, List.length_cons, pow_succ]
      have hn10 : n = 10 * (n / 10) + n % 10 := (Nat.div_add_mod n 10).symm
      generalize n / 10 = q at hn10 ⊢
      generalize n % 10 = r at hn10 ⊢
      subst hn10
      ring

theorem toDigits_spec (n : Nat) :
    Nat.toDigits 10 n ≠ [] ∧ (∀ c ∈ Nat.toDigits 10 n, c.isDigit = true) ∧
    digitsValue (Nat.toDigits 10 n) = n := by
  have h := toDigitsCore_spec (n + 1) n [] (Nat.lt_succ_self n) (by simp)
  simpa [Nat.toDigits, digitsValue] using h

theorem isDigit_bounds (c : Char) (h : c.isDigit = true) : 48 ≤ c.toNat ∧ c.toNat ≤ 57 := by
  simp only [Char.isDigit, Bool.and_eq_true, decide_eq_true_eq] at h
  exact ⟨h.1, h.2⟩

theorem isDigit_not_space (c : Char) (h : c.isDigit = true) : isJSSpace c = false := by
  obtain ⟨h1, h2⟩ := isDigit_bounds c h
  simp only [isJSSpace, decide_eq_false_iff_not]
  intro hm
  simp only [List.mem_cons, List.mem_singleton, List.not_mem_nil, or_false] at hm
  omega

theorem parseMagnitude_digits (l : List Char) (hne : l ≠ [])
    (hall : ∀ c ∈ l, c.isDigit = true) : parseMagnitude l = some (digitsValue l) := by
  have htw : l.takeWhile Char.isDigit = l := by
    rw [List.takeWhile_eq_self_iff]; exact hall
  unfold parseMagnitude
  split
  · rename_i rest
    have := hall 'x' (by simp)
    exact absurd this (by decide)
  · rename_i rest
    have := hall 'X' (by simp)
    exact absurd this (by decide)
  · simp only [htw]
    cases l with
    | nil => exact absurd rfl hne
    | cons c cs => simp

theorem parseIntChars_digits (l : List Char) (hne : l ≠ [])
    (hall : ∀ c ∈ l, c.isDigit = true) : parseIntChars l = some (digitsValue l : Int) := by
  cases l with
  | nil => exact absurd rfl hne
  | cons c cs =>
    have hc : c.isDigit = true := hall c (by simp)
    have hsp : isJSSpace c = false := isDigit_not_space c hc
    have hdw : (c :: cs).dropWhile isJSSpace = c :: cs := by simp [List.dropWhile, hsp]
    unfold parseIntChars
    rw [hdw]
    split
    · rename_i rest heq
      injection heq with h1 h2
      subst h1
      exact absurd hc (by decide)
    · rename_i rest heq
      injection heq with h1 h2
      subst h1
      exact absurd hc (by decide)
    · simp [parseMagnitude_digits (c :: cs) hne hall]

theorem parseIntChars_neg_digits (l : List Char) (hne : l ≠ [])
    (hall : ∀ c ∈ l, c.isDigit = true) :
    parseIntChars ('-' :: l) = some (- (digitsValue l : Int)) := by
  have hdw : ('-' :: l).dropWhile isJSSpace = '-' :: l := by
    simp [List.dropWhile, show isJSSpace '-' = false by decide]
  unfold parseIntChars
  rw [hdw]
  simp [parseMagnitude_digits l hne hall]

theorem toString_nat_data (n : Nat) : (toString n).data = Nat.toDigits 10 n := rfl

theorem parseIntChars_toString (n : Int) : parseIntChars (toString n).data = some n := by
  cases n with
  | ofNat m =>
    obtain ⟨hne, hall, hval⟩ := toDigits_spec m
    show parseIntChars (toString m).data = _
    rw [toString_nat_data, parseIntChars_digits _ hne hall, hval]
    rfl
  | negSucc m =>
    obtain ⟨hne, hall, hval⟩ := toDigits_spec (m + 1)
    show parseIntChars ("-" ++ toString (m + 1)).data = _
    rw [String.data_append, toString_nat_data]
    show parseIntChars ('-' :: Nat.toDigits 10 (m + 1)) = _
    rw [parseIntChars_neg_digits _ hne hall, hval]
    rfl

/-- Printing an integer of magnitude up to `2 ^ 53` and reading it back with
`parseInt` is the identity. -/
theorem parseInt_num (n : Int) (h : n.natAbs ≤ 9007199254740992) :
    parseInt (.num n) = some n := by
  simp only [parseInt, jsToString, if_pos h]
  exact parseIntChars_toString n

theorem ofRat_int (n : Int) (h : n.natAbs ≤ 9007199254740992) : ofRat n 1 = .num n := by
  simp [ofRat, h]

/-! ## The number primitives on sample values -/

theorem roundRat_samples :
    roundRat false 1 10 = .frac 3602879701896397 55 ∧
    roundRat false 3 2 = .frac 3 1 ∧
    roundRat false 9007199254740993 1 = .num 9007199254740992 ∧
    roundRat false 9007199254740995 1 = .num 9007199254740996 ∧
    roundRat false 1000000000000000000010 1 = .num 1000000000000000000000 ∧
    roundRat true 7 1 = .num (-7) ∧
    roundRat false 9007199254740992 1 = .num 9007199254740992 :=
  ⟨rfl, rfl, rfl, rfl, rfl, rfl, rfl⟩

set_option maxRecDepth 100000 in
theorem jsToString_samples :
    jsToString (.frac 3 1) = "1.5" ∧
    jsToString (.frac (-23) 1) = "-11.5" ∧
    jsToString (.frac 3602879701896397 55) = "0.1" ∧
    jsToString (.num 1152921504606846976) = "1152921504606847000" ∧
    jsToString (.num 123456789012345677877719597056) = "1.2345678901234568e+29" ∧
    finiteToString false 1 10000000 = "1e-7" ∧
    finiteToString false 9007199254740992 1 = "9007199254740992" ∧
    finiteToString false 1200 1 = "1200" ∧
    finiteToString true 7 1 = "-7" :=
  ⟨rfl, rfl, rfl, rfl, rfl, rfl, rfl, rfl, rfl⟩

theorem stringToNumber_samples :
    stringToNumber "-1.5" = .frac (-3) 1 ∧
    stringToNumber " 12 " = .num 12 ∧
    stringToNumber "" = .num 0 ∧
    stringToNumber "0x10" = .num 16 ∧
    stringToNumber "1e3" = .num 1000 ∧
    stringToNumber ".5" = .frac 1 1 ∧
    stringToNumber "-Infinity" = .inf true ∧
    stringToNumber "9007199254740993" = .num 9007199254740992 ∧
    stringToNumber "-0x10" = .nan ∧
    stringToNumber "12px" = .nan :=
  ⟨rfl, rfl, rfl, rfl, rfl, rfl, rfl, rfl, rfl, rfl⟩

theorem parseIntQuot_samples :
    numberOf (parseInt (jsDiv (.num 7201) (.num 3600))) = .num 2 ∧
    parseIntQuot (.num 7201) (.num 3600) = .num 2 ∧
    numberOf (parseInt (jsDiv (.num 1700000000123) (.num 1000))) = .num 1700000000 ∧
    parseIntQuot (.num 1700000000123) (.num 1000) = .num 1700000000 ∧
    numberOf (parseInt (jsDiv (.num (-2500)) (.num 1000))) = .num (-2) ∧
    parseIntQuot (.num (-2500)) (.num 1000) = .num (-2) ∧
    parseIntQuot (.num 1) (.num 10000000) = .num 1 ∧
    parseIntQuot (.num 5) (.num 0) = .nan :=
  ⟨rfl, rfl, rfl, rfl, rfl, rfl, rfl, rfl⟩

/-! ## The paginator -/

theorem foldl_render_data {α : Type} (render : α → String) (items : List α) (init : String) :
    (items.foldl (fun aux n => aux ++ render n) init).data
      = init.data ++ (items.map (fun n => (render n).data)).flatten := by
  induction items generalizing init with
  | nil => simp
  | cons x xs ih =>
    simp only [List.foldl_cons, List.map_cons, List.flatten_cons]
    rw [ih, String.data_append, List.append_assoc]

theorem foldl_render {α : Type} (render : α → String) (items : List α) (init : String) :
    items.foldl (fun aux n => aux ++ render n) init
      = init ++ String.join (items.map render) := by
  apply String.ext
  rw [foldl_render_data, String.data_append, String.join_eq]
  simp [List.map_map, Function.comp_def]

theorem replaceDollar_spec (rep pre post : List Char) (hpre : '$' ∉ pre) :
    replaceDollar rep (pre ++ '$' :: post) = pre ++ rep ++ post := by
  induction pre with
  | nil => simp [replaceDollar]
  | cons c cs ih =>
    have hc : c ≠ '$' := fun hc => hpre (by simp [hc])
    have hcs : '$' ∉ cs := fun hm => hpre (List.mem_cons_of_mem _ hm)
    simp [replaceDollar, hc, ih hcs]

/-- What `listItems` does on a cursor of two integers whose sum, after the
clamp, is at most `2 ^ 53` in magnitude: one accessor call at the clamped start,
then the rendered items and the link decided by the sum. -/
theorem listItems_num {α : Type} (h : HTMLGen)
    (get : JSVal → JSVal → Except String (List α × Int)) (render : α → String)
    (s p : Int) (link : String) (hsum : (max s 0 + p).natAbs ≤ 9007199254740992) :
    listItems h ⟨get, render, .num s, .num p, link⟩ =
      match get (.num (max s 0)) (.num p) with
      | .error e => ⟨[(.num (max s 0), .num p)], .error e⟩
      | .ok (items, count) =>
        ⟨[(.num (max s 0), .num p)],
          .ok (String.join (items.map render) ++
            if max s 0 + p < count then
              h.a (String.mk (replaceDollar (toString (max s 0 + p)).data link.data))
                "more" "[more]"
            else "")⟩ := by
  have hstart : (if jsLtNum (.num s) 0 then JSVal.num 0 else JSVal.num s) = .num (max s 0) := by
    by_cases hs : s < 0
    · simp [jsLtNum, toNumber, hs, max_eq_right (le_of_lt hs)]
    · simp [jsLtNum, toNumber, hs, max_eq_left (not_lt.mp hs)]
  have hadd : jsAdd (.num (max s 0)) (.num p) = .num (max s 0 + p) := by
    simp only [jsAdd, addNumbers, ratOf, ofRat, Nat.cast_one, mul_one, hsum, and_self,
      if_true]
  unfold listItems
  simp only [hstart]
  cases hg : get (.num (max s 0)) (.num p) with
  | error e => rfl
  | ok r =>
    obtain ⟨items, count⟩ := r
    simp only [hadd, parseInt_num _ hsum, numberOf, ofRat_int _ hsum, jsLtNum, toNumber,
      jsToString, if_pos hsum, foldl_render]
    by_cases hlt : max s 0 + p < count
    · simp [hlt]
    · simp [hlt]

/-- C1 fails on the code at a start beyond the integers a double holds exactly.
`1e21` is a number value (`/saved/1000000000000000000000` reaches `listItems`
with it); with 10 per page and 25 items, `start + perpage` is not below the
count, yet a link is emitted, and it targets offset 1: the sum rounds to `1e21`,
prints as `1e+21`, and `parseInt` reads `1`. Right above `2 ^ 53` the sum is
already inexact: from start `2 ^ 53` with 1 per page the link targets
`2 ^ 53`, the same page, not `2 ^ 53 + 1`. -/
theorem listItems_huge_start :
    ofRat 1000000000000000000000 1 = .num 1000000000000000000000 ∧
    jsToString (.num 1000000000000000000000) = "1e+21" ∧
    ¬ ((1000000000000000000000 : Int) + 10 < 25) ∧
    listItems plainGen
        ⟨rangeAccessor 25, renderNat, .num 1000000000000000000000, .num 10, "/saved/$"⟩ =
      ⟨[(.num 1000000000000000000000, .num 10)],
        .ok "<a href=\"/saved/1\" class=\"more\">[more]</a>"⟩ ∧
    jsAdd (.num 9007199254740992) (.num 1) = .num 9007199254740992 ∧
    listItems plainGen
        ⟨rangeAccessor 9007199254740994, renderNat, .num 9007199254740992, .num 1,
          "/saved/$"⟩ =
      ⟨[(.num 9007199254740992, .num 1)],
        .ok ("<9007199254740992>" ++
          "<a href=\"/saved/9007199254740992\" class=\"more\">[more]</a>")⟩ :=
  ⟨rfl, rfl, by decide, rfl, rfl, rfl⟩

/-- C1 as amended: for a cursor of a non-negative integer start and a positive
integer page size with `start + perpage` at most `2 ^ 53`, and a link template
whose first `$` sits between `pre` and `post`, `listItems` calls the accessor
once at `(start, perpage)` and returns the renderings of the returned items
concatenated in accessor order, followed by the `[more]` anchor exactly when
`start + perpage < count`; the href of that anchor is the template with the `$`
replaced by the decimal `start + perpage`, and nothing is appended otherwise. -/
theorem listItems_page {α : Type} (h : HTMLGen)
    (get : JSVal → JSVal → Except String (List α × Int)) (render : α → String)
    (s p count : Int) (items : List α) (pre post : String)
    (hs : 0 ≤ s) (hp : 0 < p) (hsafe : s + p ≤ 9007199254740992)
    (hpre : '$' ∉ pre.data)
    (hget : get (.num s) (.num p) = .ok (items, count)) :
    listItems h ⟨get, render, .num s, .num p, pre ++ "$" ++ post⟩ =
      ⟨[(.num s, .num p)],
        .ok (String.join (items.map render) ++
          if s + p < count then h.a (pre ++ toString (s + p) ++ post) "more" "[more]"
          else "")⟩ := by
  have hlink : String.mk (replaceDollar (toString (s + p)).data (pre ++ "$" ++ post).data)
      = pre ++ toString (s + p) ++ post := by
    apply String.ext
    simp only [String.data_append]
    rw [List.append_assoc, List.singleton_append, replaceDollar_spec _ _ _ hpre]
  have hsum : (max s 0 + p).natAbs ≤ 9007199254740992 := by
    rw [max_eq_left hs]
    omega
  rw [listItems_num h get render s p _ hsum, max_eq_left hs, hget]
  simp only [hlink]

/-- C1 as amended, the example of the specification: 25 items, 10 per page.
From start 0 the page is items 0 to 9 and a link to offset 10; from start 20 it
is items 20 to 24 and no link. -/
theorem listItems_page_witness :
    listItems plainGen ⟨rangeAccessor 25, renderNat, .num 0, .num 10, "/top/" ++ "$" ++ ""⟩ =
      ⟨[(.num 0, .num 10)],
        .ok ("<0><1><2><3><4><5><6><7><8><9>" ++
          "<a href=\"/top/10\" class=\"more\">[more]</a>")⟩ ∧
    listItems plainGen ⟨rangeAccessor 25, renderNat, .num 20, .num 10, "/top/" ++ "$" ++ ""⟩ =
      ⟨[(.num 20, .num 10)], .ok "<20><21><22><23><24>"⟩ :=
  ⟨(listItems_page plainGen (rangeAccessor 25) renderNat 0 10 25
      [0, 1, 2, 3, 4, 5, 6, 7, 8, 9] "/top/" "" (by decide) (by decide) (by decide)
      (by decide) rfl).trans rfl,
   (listItems_page plainGen (rangeAccessor 25) renderNat 20 10 25
      [20, 21, 22, 23, 24] "/top/" "" (by decide) (by decide) (by decide)
      (by decide) rfl).trans rfl⟩

/-- C2: the latest view does not page by the numeric sum. With 10 news per page
and 25 news, `/latest/10` calls the accessor with the string `"10"` and emits no
link, although 10 + 10 < 25: the cursor start is a string, `o.start + o.perpage`
is the text `"1010"` and `parseInt` reads 1010. With 5000 news the link goes to
`/latest/1010`. The saved view, which converts the same path segment to a number
first, links to offset 20. -/
theorem getLatestStart_joins_digits :
    getLatestStart plainGen 10 (rangeAccessor 25) renderNat "10" =
      ⟨[(.str "10", .num 10)], .ok "<10><11><12><13><14><15><16><17><18><19>"⟩ ∧
    getLatestStart plainGen 10 (rangeAccessor 5000) renderNat "10" =
      ⟨[(.str "10", .num 10)],
        .ok ("<10><11><12><13><14><15><16><17><18><19>" ++
          "<a href=\"/latest/1010\" class=\"more\">[more]</a>")⟩ ∧
    getSavedStart plainGen 10 (rangeAccessor 25) renderNat "10" =
      some ⟨[(.num 10, .num 10)],
        .ok ("<10><11><12><13><14><15><16><17><18><19>" ++
          "<a href=\"/saved/20\" class=\"more\">[more]</a>")⟩ :=
  ⟨rfl, rfl, rfl⟩


/-- C3: every negative number, integer or not, and minus infinity compare
below zero, and a cursor whose start compares below zero (a number, or a string
that converts to one) is clamped: the accessor is called once, at offset 0, and
the whole run (accessor calls and returned page or error) is that of the same
cursor with start 0. -/
theorem listItems_negative_start {α : Type} (h : HTMLGen) :
    (∀ n : Int, n < 0 → jsLtNum (.num n) 0 = true) ∧
    (∀ (m : Int) (k : Nat), m < 0 → jsLtNum (.frac m k) 0 = true) ∧
    jsLtNum (.inf true) 0 = true ∧
    ∀ o : Paginate α, jsLtNum o.start 0 = true →
      listItems h o = listItems h { o with start := .num 0 } ∧
      (listItems h o).calls = [(.num 0, o.perpage)] := by
  refine ⟨fun n hn => by simp [jsLtNum, toNumber, hn],
    fun m k hm => by simp [jsLtNum, toNumber, hm], rfl, ?_⟩
  intro o h1
  have h2 : jsLtNum (.num 0) 0 = false := by decide
  constructor
  · unfold listItems
    simp only [h1, h2, if_true]
    rfl
  · unfold listItems
    simp only [h1, if_true]
    cases o.get (.num 0) o.perpage with
    | error e => rfl
    | ok r =>
      obtain ⟨items, count⟩ := r
      dsimp only
      split <;> rfl

/-- C3, the example of the specification and its variants: the starts -5,
-1.5 (the fraction -3/2), `"-5"` and `"-1.5"` each give the run of start 0. -/
theorem listItems_negative_start_witness :
    (jsLtNum (.num (-5)) 0 = true ∧ jsLtNum (.frac (-3) 1) 0 = true ∧
      jsLtNum (.str "-5") 0 = true ∧ jsLtNum (.str "-1.5") 0 = true) ∧
    (listItems plainGen ⟨rangeAccessor 25, renderNat, .num (-5), .num 10, "/top/$"⟩
        = listItems plainGen ⟨rangeAccessor 25, renderNat, .num 0, .num 10, "/top/$"⟩ ∧
      (listItems plainGen ⟨rangeAccessor 25, renderNat, .num (-5), .num 10, "/top/$"⟩).calls
        = [(.num 0, .num 10)]) ∧
    (listItems plainGen ⟨rangeAccessor 25, renderNat, .frac (-3) 1, .num 10, "/top/$"⟩
        = listItems plainGen ⟨rangeAccessor 25, renderNat, .num 0, .num 10, "/top/$"⟩ ∧
      (listItems plainGen ⟨rangeAccessor 25, renderNat, .frac (-3) 1, .num 10, "/top/$"⟩).calls
        = [(.num 0, .num 10)]) ∧
    (listItems plainGen ⟨rangeAccessor 25, renderNat, .str "-5", .num 10, "/top/$"⟩
        = listItems plainGen ⟨rangeAccessor 25, renderNat, .num 0, .num 10, "/top/$"⟩ ∧
      (listItems plainGen ⟨rangeAccessor 25, renderNat, .str "-5", .num 10, "/top/$"⟩).calls
        = [(.num 0, .num 10)]) ∧
    (listItems plainGen ⟨rangeAccessor 25, renderNat, .str "-1.5", .num 10, "/top/$"⟩
        = listItems plainGen ⟨rangeAccessor 25, renderNat, .num 0, .num 10, "/top/$"⟩ ∧
      (listItems plainGen ⟨rangeAccessor 25, renderNat, .str "-1.5", .num 10, "/top/$"⟩).calls
        = [(.num 0, .num 10)]) :=
  ⟨⟨rfl, rfl, rfl, rfl⟩,
   (listItems_negative_start plainGen).2.2.2
     ⟨rangeAccessor 25, renderNat, .num (-5), .num 10, "/top/$"⟩ rfl,
   (listItems_negative_start plainGen).2.2.2
     ⟨rangeAccessor 25, renderNat, .frac (-3) 1, .num 10, "/top/$"⟩ rfl,
   (listItems_negative_start plainGen).2.2.2
     ⟨rangeAccessor 25, renderNat, .str "-5", .num 10, "/top/$"⟩ rfl,
   (listItems_negative_start plainGen).2.2.2
     ⟨rangeAccessor 25, renderNat, .str "-1.5", .num 10, "/top/$"⟩ rfl⟩

/-- C4 fails on the code: with page size 0, and with page size -10, `listItems`
raises nothing; it calls the accessor with that page size and returns a page,
here an empty list of items followed by a link built from the page size. -/
theorem listItems_accepts_bad_perpage :
    listItems plainGen ⟨rangeAccessor 25, renderNat, .num 0, .num 0, "/top/$"⟩ =
      ⟨[(.num 0, .num 0)], .ok "<a href=\"/top/0\" class=\"more\">[more]</a>"⟩ ∧
    listItems plainGen ⟨rangeAccessor 25, renderNat, .num 0, .num (-10), "/top/$"⟩ =
      ⟨[(.num 0, .num (-10))], .ok "<a href=\"/top/-10\" class=\"more\">[more]</a>"⟩ :=
  ⟨rfl, rfl⟩

/-- C4 as amended: `listItems` does not check the page size. For every cursor
of an integer start from 0 to `2 ^ 53` and a zero or negative integer page size
down to `-2 ^ 53`, it makes exactly one accessor call, with that page size
unchanged, and then returns what the accessor's answer determines: the
accessor's error if it failed, otherwise the rendered items followed by the
link exactly when `start + perpage < count`, the `$` of the template replaced
by that sum. -/
theorem listItems_nonpositive_perpage {α : Type} (h : HTMLGen)
    (get : JSVal → JSVal → Except String (List α × Int)) (render : α → String)
    (s p : Int) (link : String) (hs : 0 ≤ s) (hs' : s ≤ 9007199254740992)
    (hp : p ≤ 0) (hp' : -9007199254740992 ≤ p) :
    (listItems h ⟨get, render, .num s, .num p, link⟩).calls = [(.num s, .num p)] ∧
    (listItems h ⟨get, render, .num s, .num p, link⟩).result =
      match get (.num s) (.num p) with
      | .error e => .error e
      | .ok (items, count) =>
        .ok (String.join (items.map render) ++
          if s + p < count then
            h.a (String.mk (replaceDollar (toString (s + p)).data link.data)) "more" "[more]"
          else "") := by
  have hsum : (max s 0 + p).natAbs ≤ 9007199254740992 := by
    rw [max_eq_left hs]
    omega
  rw [listItems_num h get render s p link hsum, max_eq_left hs]
  cases get (.num s) (.num p) with
  | error e => exact ⟨rfl, rfl⟩
  | ok r => exact ⟨rfl, rfl⟩

/-- C4 as amended, at page size 0 and start 0 over 25 items. -/
theorem listItems_nonpositive_perpage_witness :
    ((0 : Int) ≤ 0 ∧ (0 : Int) ≤ 9007199254740992 ∧ (0 : Int) ≤ 0 ∧
      (-9007199254740992 : Int) ≤ 0) ∧
    (listItems plainGen ⟨rangeAccessor 25, renderNat, .num 0, .num 0, "/top/$"⟩).calls
      = [(.num 0, .num 0)] ∧
    (listItems plainGen ⟨rangeAccessor 25, renderNat, .num 0, .num 0, "/top/$"⟩).result
      = .ok "<a href=\"/top/0\" class=\"more\">[more]</a>" :=
  ⟨⟨by decide, by decide, by decide, by decide⟩,
   (listItems_nonpositive_perpage plainGen (rangeAccessor 25) renderNat 0 0 "/top/$"
      (by decide) (by decide) (by decide) (by decide)).1,
   (listItems_nonpositive_perpage plainGen (rangeAccessor 25) renderNat 0 0 "/top/$"
      (by decide) (by decide) (by decide) (by decide)).2.trans rfl⟩

/-! ## The recompute job -/

theorem news_key_inj (a b : String) (hk : "news:" ++ a = "news:" ++ b) : a = b := by
  have hd := congrArg String.data hk
  simp only [String.data_append] at hd
  exact String.ext (List.append_cancel_left hd)

theorem writeItem_cron {V : Type} (s : Store V) (i : String) (sc rk : V) :
    (writeItem s i sc rk).cron = s.cron := rfl

theorem writeItem_top {V : Type} (s : Store V) (i : String) (sc rk : V) (j : String) :
    (writeItem s i sc rk).top j = if j = i then some rk else s.top j := rfl

theorem writeItem_hashes {V : Type} (s : Store V) (i : String) (sc rk : V) (k f : String) :
    (writeItem s i sc rk).hashes k f =
      if k = "news:" ++ i then
        if f = "rank" then some rk else if f = "score" then some sc else s.hashes k f
      else s.hashes k f := rfl

theorem recomputeLoop_cons {N V : Type} (m : NewsModule N V) (i : String) (rest : List String)
    (s : Store V) :
    recomputeLoop m (i :: rest) s =
      match scoreRank m s i with
      | .error e => ⟨s, [], some e⟩
      | .ok (score, rank) =>
        ⟨(recomputeLoop m rest (writeItem s i score rank)).store,
          (i, score, rank) :: (recomputeLoop m rest (writeItem s i score rank)).visits,
          (recomputeLoop m rest (writeItem s i score rank)).error⟩ := by
  rw [recomputeLoop]

theorem recomputeLoop_cron {N V : Type} (m : NewsModule N V) (l : List String) :
    ∀ s : Store V, (recomputeLoop m l s).store.cron = s.cron := by
  induction l with
  | nil => intro s; rfl
  | cons i rest ih =>
    intro s
    rw [recomputeLoop_cons]
    cases scoreRank m s i with
    | error e => rfl
    | ok r => exact (ih _).trans (writeItem_cron s i r.1 r.2)

theorem recomputeLoop_hashes_other {N V : Type} (m : NewsModule N V) (l : List String) :
    ∀ (s : Store V) (k f : String), (∀ i ∈ l, k ≠ "news:" ++ i) →
      (recomputeLoop m l s).store.hashes k f = s.hashes k f := by
  induction l with
  | nil => intro s k f _; rfl
  | cons i rest ih =>
    intro s k f hk
    rw [recomputeLoop_cons]
    cases scoreRank m s i with
    | error e => rfl
    | ok r =>
      show (recomputeLoop m rest (writeItem s i r.1 r.2)).store.hashes k f = _
      rw [ih _ k f (fun j hj => hk j (List.mem_cons_of_mem _ hj)), writeItem_hashes,
        if_neg (hk i (List.mem_cons_self _ _))]

theorem recomputeLoop_hashes_field {N V : Type} (m : NewsModule N V) (l : List String) :
    ∀ (s : Store V) (k f : String), f ≠ "score" → f ≠ "rank" →
      (recomputeLoop m l s).store.hashes k f = s.hashes k f := by
  induction l with
  | nil => intro s k f _ _; rfl
  | cons i rest ih =>
    intro s k f h1 h2
    rw [recomputeLoop_cons]
    cases scoreRank m s i with
    | error e => rfl
    | ok r =>
      show (recomputeLoop m rest (writeItem s i r.1 r.2)).store.hashes k f = _
      rw [ih _ k f h1 h2, writeItem_hashes, if_neg h2, if_neg h1, ite_self]

theorem recomputeLoop_top_other {N V : Type} (m : NewsModule N V) (l : List String) :
    ∀ (s : Store V) (j : String), j ∉ l → (recomputeLoop m l s).store.top j = s.top j := by
  induction l with
  | nil => intro s j _; rfl
  | cons i rest ih =>
    intro s j hj
    rw [recomputeLoop_cons]
    cases scoreRank m s i with
    | error e => rfl
    | ok r =>
      show (recomputeLoop m rest (writeItem s i r.1 r.2)).store.top j = _
      rw [ih _ j (fun hm => hj (List.mem_cons_of_mem _ hm)), writeItem_top,
        if_neg (fun (hji : j = i) => hj (hji ▸ List.mem_cons_self _ _))]

theorem recomputeLoop_visits_ids {N V : Type} (m : NewsModule N V) (l : List String) :
    ∀ s : Store V, (recomputeLoop m l s).error = none →
      (recomputeLoop m l s).visits.map (fun v => v.1) = l := by
  induction l with
  | nil => intro s _; rfl
  | cons i rest ih =>
    intro s
    rw [recomputeLoop_cons]
    cases scoreRank m s i with
    | error e => intro he; exact absurd he (by simp)
    | ok r =>
      intro he
      show i :: (recomputeLoop m rest (writeItem s i r.1 r.2)).visits.map (fun v => v.1) = _
      rw [ih _ he]

theorem recomputeLoop_visits_mem {N V : Type} (m : NewsModule N V) (l : List String) :
    ∀ (s : Store V) (v : String × V × V), v ∈ (recomputeLoop m l s).visits → v.1 ∈ l := by
  induction l with
  | nil => intro s v hv; exact absurd hv (List.not_mem_nil _)
  | cons i rest ih =>
    intro s v
    rw [recomputeLoop_cons]
    cases scoreRank m s i with
    | error e => intro hv; exact absurd hv (List.not_mem_nil _)
    | ok r =>
      intro hv
      rcases List.mem_cons.mp hv with rfl | hv
      · exact List.mem_cons_self _ _
      · exact List.mem_cons_of_mem _ (ih _ v hv)

theorem recomputeLoop_values {N V : Type} (m : NewsModule N V) (l : List String) :
    ∀ (s : Store V), l.Nodup → ∀ v ∈ (recomputeLoop m l s).visits,
      (recomputeLoop m l s).store.hashes ("news:" ++ v.1) "score" = some v.2.1 ∧
      (recomputeLoop m l s).store.hashes ("news:" ++ v.1) "rank" = some v.2.2 ∧
      (recomputeLoop m l s).store.top v.1 = some v.2.2 := by
  induction l with
  | nil => intro s _ v hv; exact absurd hv (List.not_mem_nil _)
  | cons i rest ih =>
    intro s hnd v
    have hi : i ∉ rest := (List.nodup_cons.mp hnd).1
    rw [recomputeLoop_cons]
    cases scoreRank m s i with
    | error e => intro hv; exact absurd hv (List.not_mem_nil _)
    | ok r =>
      intro hv
      rcases List.mem_cons.mp hv with rfl | hv
      · have hkey : ∀ j ∈ rest, "news:" ++ i ≠ "news:" ++ j :=
          fun j hj hk => hi (news_key_inj _ _ hk ▸ hj)
        refine ⟨?_, ?_, ?_⟩
        · show (recomputeLoop m rest (writeItem s i r.1 r.2)).store.hashes _ _ = _
          rw [recomputeLoop_hashes_other m rest _ _ _ hkey, writeItem_hashes]
          simp
        · show (recomputeLoop m rest (writeItem s i r.1 r.2)).store.hashes _ _ = _
          rw [recomputeLoop_hashes_other m rest _ _ _ hkey, writeItem_hashes]
          simp
        · show (recomputeLoop m rest (writeItem s i r.1 r.2)).store.top _ = _
          rw [recomputeLoop_top_other m rest _ _ hi, writeItem_top]
          simp
      · exact ih _ (List.nodup_cons.mp hnd).2 v hv

theorem recomputeLoop_at_visit {N V : Type} (m : NewsModule N V) (i : String)
    (post : List String) : ∀ (pre : List String) (s : Store V),
      (recomputeLoop m (pre ++ i :: post) s).error = none →
      (recomputeLoop m pre s).error = none ∧
      ∃ sc rk, scoreRank m (recomputeLoop m pre s).store i = .ok (sc, rk) ∧
        (i, sc, rk) ∈ (recomputeLoop m (pre ++ i :: post) s).visits := by
  intro pre
  induction pre with
  | nil =>
    intro s
    rw [List.nil_append, recomputeLoop_cons]
    cases hsr : scoreRank m s i with
    | error e => intro he; exact absurd he (by simp)
    | ok r =>
      intro _
      exact ⟨rfl, r.1, r.2, hsr, List.mem_cons_self _ _⟩
  | cons j rest ih =>
    intro s
    rw [List.cons_append, recomputeLoop_cons, recomputeLoop_cons]
    cases scoreRank m s j with
    | error e => intro he; exact absurd he (by simp)
    | ok r =>
      intro he
      obtain ⟨h1, sc, rk, h2, h3⟩ := ih (writeItem s j r.1 r.2) he
      exact ⟨h1, sc, rk, h2, List.mem_cons_of_mem _ h3⟩

theorem recomputeLoop_stops {N V : Type} (m : NewsModule N V) (k : String)
    (post : List String) (e : String) : ∀ (pre : List String) (s : Store V),
      (recomputeLoop m pre s).error = none →
      scoreRank m (recomputeLoop m pre s).store k = .error e →
      recomputeLoop m (pre ++ k :: post) s =
        ⟨(recomputeLoop m pre s).store, (recomputeLoop m pre s).visits, some e⟩ := by
  intro pre
  induction pre with
  | nil =>
    intro s _ hk
    have hk' : scoreRank m s k = .error e := hk
    rw [List.nil_append, recomputeLoop_cons, hk']
    rfl
  | cons j rest ih =>
    intro s
    rw [List.cons_append, recomputeLoop_cons, recomputeLoop_cons]
    cases scoreRank m s j with
    | error e' => intro he; exact absurd he (by simp)
    | ok r =>
      obtain ⟨a, b⟩ := r
      intro he hk
      dsimp only at he hk ⊢
      rw [ih (writeItem s j a b) he hk]

theorem recompute_admin {N V U : Type} (h : HTMLGen) (m : NewsModule N V) (isAdmin : U → Bool)
    (u : U) (s : Store V) (hadmin : isAdmin u = true) :
    recompute h m isAdmin (some u) s =
      match (recomputeLoop m s.cron s).error with
      | some e => ⟨(recomputeLoop m s.cron s).store, (recomputeLoop m s.cron s).visits, .error e⟩
      | none => ⟨(recomputeLoop m s.cron s).store, (recomputeLoop m s.cron s).visits,
          .ok (.send (h.page (h.p "Done.")))⟩ := by
  simp [recompute, hadmin]

/-- C5 fails on the code: three indexed items, the second one deleted so that
reading it raises. The handler ends with that error, it has visited item 1 only,
and item 3 still carries its stale score 0 (its votes give 5): the walk was
aborted, not continued. -/
theorem recompute_aborts_on_failure :
    (recompute plainGen storedScoreModule (fun (_ : Unit) => true) (some ())
        (exampleStore ["1", "2", "3"] ["1", "3"])).result
      = .error "TypeError: Cannot read property of null" ∧
    (recompute plainGen storedScoreModule (fun (_ : Unit) => true) (some ())
        (exampleStore ["1", "2", "3"] ["1", "3"])).visits = [("1", 5, 0)] ∧
    (recompute plainGen storedScoreModule (fun (_ : Unit) => true) (some ())
        (exampleStore ["1", "2", "3"] ["1", "3"])).store.hashes "news:3" "score" = some 0 ∧
    (recompute plainGen storedScoreModule (fun (_ : Unit) => true) (some ())
        (exampleStore ["1", "2", "3"] ["1", "3"])).store.hashes "news:1" "score" = some 5 :=
  ⟨rfl, rfl, rfl, rfl⟩

/-- C5 as amended: the handler has no per-item error handling. When the index
(without repeated members) lists `pre`, then `k`, then `post`, the items of
`pre` are processed without error and processing `k` fails in the store reached
then, the handler ends with that error and not with its success page. The
visited items are exactly those of `pre`, in order; each was scored and ranked
in the store reached after the items before it; at the end the record of each
holds that score and rank and its `news.top` score is that rank. For every id
outside `pre` (so for `k` and for the items after it) no field of its record
and no `news.top` entry has changed. -/
theorem recompute_stops_at_failure {N V U : Type} (h : HTMLGen) (m : NewsModule N V)
    (isAdmin : U → Bool) (u : U) (s : Store V) (pre post : List String) (k e : String)
    (hadmin : isAdmin u = true) (hcron : s.cron = pre ++ k :: post)
    (hnodup : s.cron.Nodup)
    (hpre : (recomputeLoop m pre s).error = none)
    (hk : scoreRank m (recomputeLoop m pre s).store k = .error e) :
    (recompute h m isAdmin (some u) s).result = .error e ∧
    (recompute h m isAdmin (some u) s).visits.map (fun v => v.1) = pre ∧
    (∀ pre1 i post1, pre = pre1 ++ i :: post1 →
      ∃ sc rk, scoreRank m (recomputeLoop m pre1 s).store i = .ok (sc, rk) ∧
        (i, sc, rk) ∈ (recompute h m isAdmin (some u) s).visits) ∧
    (∀ v ∈ (recompute h m isAdmin (some u) s).visits,
      (recompute h m isAdmin (some u) s).store.hashes ("news:" ++ v.1) "score" = some v.2.1 ∧
      (recompute h m isAdmin (some u) s).store.hashes ("news:" ++ v.1) "rank" = some v.2.2 ∧
      (recompute h m isAdmin (some u) s).store.top v.1 = some v.2.2) ∧
    ∀ i, i ∉ pre →
      (∀ f, (recompute h m isAdmin (some u) s).store.hashes ("news:" ++ i) f
          = s.hashes ("news:" ++ i) f) ∧
      (recompute h m isAdmin (some u) s).store.top i = s.top i := by
  have hnd : pre.Nodup := by
    rw [hcron] at hnodup
    exact (List.nodup_append.mp hnodup).1
  rw [recompute_admin h m isAdmin u s hadmin, hcron, recomputeLoop_stops m k post e pre s hpre hk]
  refine ⟨rfl, recomputeLoop_visits_ids m pre s hpre, ?_, recomputeLoop_values m pre s hnd, ?_⟩
  · intro pre1 i post1 hsplit
    have herr : (recomputeLoop m (pre1 ++ i :: post1) s).error = none := hsplit ▸ hpre
    obtain ⟨_, sc, rk, h1, h2⟩ := recomputeLoop_at_visit m i post1 pre1 s herr
    exact ⟨sc, rk, h1, hsplit ▸ h2⟩
  · intro i hi
    refine ⟨fun f => ?_, recomputeLoop_top_other m pre s i hi⟩
    exact recomputeLoop_hashes_other m pre s _ f
      (fun j hj hkey => hi (news_key_inj _ _ hkey ▸ hj))

/-- C5 as amended, on the three-item example: `pre` is item 1, `k` is the
deleted item 2, `post` is item 3; item 1 has been written with score 5. -/
theorem recompute_stops_at_failure_witness :
    (recompute plainGen storedScoreModule (fun (_ : Unit) => true) (some ())
        (exampleStore ["1", "2", "3"] ["1", "3"])).result
      = .error "TypeError: Cannot read property of null" ∧
    (recompute plainGen storedScoreModule (fun (_ : Unit) => true) (some ())
        (exampleStore ["1", "2", "3"] ["1", "3"])).visits.map (fun v => v.1) = ["1"] ∧
    (recompute plainGen storedScoreModule (fun (_ : Unit) => true) (some ())
        (exampleStore ["1", "2", "3"] ["1", "3"])).store.hashes "news:1" "score" = some 5 :=
  have hw := recompute_stops_at_failure plainGen storedScoreModule (fun (_ : Unit) => true) ()
    (exampleStore ["1", "2", "3"] ["1", "3"]) ["1"] ["3"] "2"
    "TypeError: Cannot read property of null" rfl rfl (by decide) rfl rfl
  ⟨hw.1, hw.2.1, rfl⟩

/-- C7: for an admin user and a run that ends without error, over an index
without repeated members: the handler answers with its `Done.` page; the ids
visited, in order, are the members of `news.cron` in index order, each exactly
once; every visited id was scored and ranked in the store reached after the
walk over the ids before it, and those values are the ones logged for it; at
the end each visited record holds its score and rank and its `news.top` score
is that rank; no hash of another key, no other field, no other `news.top`
member and not `news.cron` is changed. -/
theorem recompute_rekeys_every_item {N V U : Type} (h : HTMLGen) (m : NewsModule N V)
    (isAdmin : U → Bool) (u : U) (s : Store V)
    (hadmin : isAdmin u = true) (hnodup : s.cron.Nodup)
    (hok : ∃ r, (recompute h m isAdmin (some u) s).result = .ok r) :
    (recompute h m isAdmin (some u) s).result = .ok (.send (h.page (h.p "Done."))) ∧
    (recompute h m isAdmin (some u) s).visits.map (fun v => v.1) = s.cron ∧
    (∀ i ∈ s.cron,
      ((recompute h m isAdmin (some u) s).visits.map (fun v => v.1)).count i = 1) ∧
    (∀ pre i post, s.cron = pre ++ i :: post →
      ∃ sc rk, scoreRank m (recomputeLoop m pre s).store i = .ok (sc, rk) ∧
        (i, sc, rk) ∈ (recompute h m isAdmin (some u) s).visits) ∧
    (∀ v ∈ (recompute h m isAdmin (some u) s).visits,
      (recompute h m isAdmin (some u) s).store.hashes ("news:" ++ v.1) "score" = some v.2.1 ∧
      (recompute h m isAdmin (some u) s).store.hashes ("news:" ++ v.1) "rank" = some v.2.2 ∧
      (recompute h m isAdmin (some u) s).store.top v.1 = some v.2.2) ∧
    (∀ k f, (∀ i ∈ s.cron, k ≠ "news:" ++ i) →
      (recompute h m isAdmin (some u) s).store.hashes k f = s.hashes k f) ∧
    (∀ k f, f ≠ "score" → f ≠ "rank" →
      (recompute h m isAdmin (some u) s).store.hashes k f = s.hashes k f) ∧
    (∀ j, j ∉ s.cron → (recompute h m isAdmin (some u) s).store.top j = s.top j) ∧
    (recompute h m isAdmin (some u) s).store.cron = s.cron := by
  obtain ⟨r, hr⟩ := hok
  rw [recompute_admin h m isAdmin u s hadmin] at hr ⊢
  cases herr : (recomputeLoop m s.cron s).error with
  | some e => rw [herr] at hr; exact absurd hr (by simp)
  | none =>
    dsimp only
    have hids := recomputeLoop_visits_ids m s.cron s herr
    refine ⟨rfl, hids, ?_, ?_, recomputeLoop_values m s.cron s hnodup,
      recomputeLoop_hashes_other m s.cron s, recomputeLoop_hashes_field m s.cron s,
      recomputeLoop_top_other m s.cron s, recomputeLoop_cron m s.cron s⟩
    · intro i hi
      rw [hids]
      exact List.count_eq_one_of_mem hnodup hi
    · intro pre i post hcron
      have herr' : (recomputeLoop m (pre ++ i :: post) s).error = none := hcron ▸ herr
      obtain ⟨_, sc, rk, h1, h2⟩ := recomputeLoop_at_visit m i post pre s herr'
      exact ⟨sc, rk, h1, hcron ▸ h2⟩

/-- C7 on a two-item index: both items are visited in index order and the
handler answers with its page. -/
theorem recompute_rekeys_every_item_witness :
    (recompute plainGen votesModule (fun (_ : Unit) => true) (some ())
        (exampleStore ["2", "1"] ["1", "2"])).result
      = .ok (.send "<html><p>Done.</p></html>") ∧
    (recompute plainGen votesModule (fun (_ : Unit) => true) (some ())
        (exampleStore ["2", "1"] ["1", "2"])).visits.map (fun v => v.1) = ["2", "1"] :=
  have hw := recompute_rekeys_every_item plainGen votesModule (fun (_ : Unit) => true) ()
    (exampleStore ["2", "1"] ["1", "2"]) rfl (by decide) ⟨_, rfl⟩
  ⟨hw.1, hw.2.1⟩

/-! ## Running the recompute job twice -/

theorem store_ext {V : Type} (a b : Store V) (h1 : a.cron = b.cron)
    (h2 : ∀ k f, a.hashes k f = b.hashes k f) (h3 : ∀ j, a.top j = b.top j) : a = b := by
  cases a; cases b
  simp only [Store.mk.injEq]
  exact ⟨h1, funext fun k => funext fun f => h2 k f, funext h3⟩

theorem writeItem_idem {V : Type} (s : Store V) (i : String) (sc rk : V) :
    writeItem (writeItem s i sc rk) i sc rk = writeItem s i sc rk := by
  apply store_ext
  · rfl
  · intro k f
    simp only [writeItem_hashes]
    split_ifs <;> rfl
  · intro j
    simp only [writeItem_top]
    split_ifs <;> rfl

theorem writeItem_comm {V : Type} (s : Store V) (i j : String) (a b c d : V) (hij : i ≠ j) :
    writeItem (writeItem s j a b) i c d = writeItem (writeItem s i c d) j a b := by
  apply store_ext
  · rfl
  · intro k f
    simp only [writeItem_hashes]
    by_cases hi : k = "news:" ++ i
    · have hj : k ≠ "news:" ++ j := fun hj => hij (news_key_inj _ _ (hi.symm.trans hj))
      simp only [if_pos hi, if_neg hj]
    · simp only [if_neg hi]
  · intro t
    simp only [writeItem_top]
    by_cases hi : t = i
    · have hj : t ≠ j := fun hj => hij (hi.symm.trans hj)
      simp [hi, hij]
    · simp [hi]

theorem recomputeLoop_keeps_absorbed {N V : Type} (m : NewsModule N V)
    (hframe : ∀ (t : Store V) (i : String) (sc rk : V) (j : String),
      scoreRank m (writeItem t i sc rk) j = scoreRank m t j)
    (i : String) (sc rk : V) (l : List String) :
    ∀ s : Store V, writeItem s i sc rk = s → scoreRank m s i = .ok (sc, rk) →
      writeItem (recomputeLoop m l s).store i sc rk = (recomputeLoop m l s).store := by
  induction l with
  | nil => intro s hs _; exact hs
  | cons j rest ih =>
    intro s hs hsr
    rw [recomputeLoop_cons]
    cases hj : scoreRank m s j with
    | error e => exact hs
    | ok r =>
      obtain ⟨a, b⟩ := r
      dsimp only
      apply ih
      · by_cases hij : i = j
        · subst hij
          rw [hsr] at hj
          injection hj with hj
          injection hj with h1 h2
          subst h1; subst h2
          exact writeItem_idem s i sc rk
        · rw [writeItem_comm s i j a b sc rk hij, hs]
      · rw [hframe, hsr]

theorem recomputeLoop_absorbs_visits {N V : Type} (m : NewsModule N V)
    (hframe : ∀ (t : Store V) (i : String) (sc rk : V) (j : String),
      scoreRank m (writeItem t i sc rk) j = scoreRank m t j) (l : List String) :
    ∀ s : Store V, ∀ v ∈ (recomputeLoop m l s).visits,
      writeItem (recomputeLoop m l s).store v.1 v.2.1 v.2.2 = (recomputeLoop m l s).store := by
  induction l with
  | nil => intro s v hv; exact absurd hv (List.not_mem_nil _)
  | cons j rest ih =>
    intro s v
    rw [recomputeLoop_cons]
    cases hj : scoreRank m s j with
    | error e => intro hv; exact absurd hv (List.not_mem_nil _)
    | ok r =>
      obtain ⟨a, b⟩ := r
      dsimp only
      intro hv
      rcases List.mem_cons.mp hv with rfl | hv
      · exact recomputeLoop_keeps_absorbed m hframe j a b rest _ (writeItem_idem s j a b)
          (by rw [hframe, hj])
      · exact ih _ v hv

theorem recomputeLoop_replay {N V : Type} (m : NewsModule N V)
    (hframe : ∀ (t : Store V) (i : String) (sc rk : V) (j : String),
      scoreRank m (writeItem t i sc rk) j = scoreRank m t j) (l : List String) :
    ∀ s t : Store V, (∀ j, scoreRank m t j = scoreRank m s j) →
      (∀ v ∈ (recomputeLoop m l s).visits, writeItem t v.1 v.2.1 v.2.2 = t) →
      recomputeLoop m l t = ⟨t, (recomputeLoop m l s).visits, (recomputeLoop m l s).error⟩ := by
  induction l with
  | nil => intro s t _ _; rfl
  | cons j rest ih =>
    intro s t hst
    rw [recomputeLoop_cons, recomputeLoop_cons, hst j]
    cases scoreRank m s j with
    | error e => intro _; rfl
    | ok r =>
      obtain ⟨a, b⟩ := r
      dsimp only
      intro habs
      have ht : writeItem t j a b = t := habs (j, a, b) (List.mem_cons_self _ _)
      rw [ht, ih (writeItem s j a b) t (fun i => by rw [hframe, hst])
        (fun v hv => habs v (List.mem_cons_of_mem _ hv))]

theorem recomputeLoop_frame {N V : Type} (m : NewsModule N V)
    (hframe : ∀ (t : Store V) (i : String) (sc rk : V) (j : String),
      scoreRank m (writeItem t i sc rk) j = scoreRank m t j) (l : List String) :
    ∀ (s : Store V) (j : String),
      scoreRank m (recomputeLoop m l s).store j = scoreRank m s j := by
  induction l with
  | nil => intro s j; rfl
  | cons i rest ih =>
    intro s j
    rw [recomputeLoop_cons]
    cases scoreRank m s i with
    | error e => rfl
    | ok r =>
      obtain ⟨a, b⟩ := r
      dsimp only
      rw [ih, hframe]

theorem votesModule_frame (t : Store Int) (i : String) (sc rk : Int) (j : String) :
    scoreRank votesModule (writeItem t i sc rk) j = scoreRank votesModule t j := by
  have hup : (writeItem t i sc rk).hashes ("news:" ++ j) "up" = t.hashes ("news:" ++ j) "up" := by
    rw [writeItem_hashes]
    simp
  simp only [scoreRank, votesModule, hup]

/-- C6 fails on the code for score and rank functions of the record read at
the visit: one item with 5 votes and a stale stored score 0, the rank being
derived from the score carried by the record. The first run persists score 5
and rank 0 (computed from the stale score); a second run persists rank 10 and
re-keys `news.top` to 10. -/
theorem recompute_twice_differs :
    (recompute plainGen storedScoreModule (fun (_ : Unit) => true) (some ())
        (exampleStore ["1"] ["1"])).store.hashes "news:1" "rank" = some 0 ∧
    (recompute plainGen storedScoreModule (fun (_ : Unit) => true) (some ())
        (exampleStore ["1"] ["1"])).store.top "1" = some 0 ∧
    (recompute plainGen storedScoreModule (fun (_ : Unit) => true) (some ())
        (recompute plainGen storedScoreModule (fun (_ : Unit) => true) (some ())
          (exampleStore ["1"] ["1"])).store).store.hashes "news:1" "rank" = some 10 ∧
    (recompute plainGen storedScoreModule (fun (_ : Unit) => true) (some ())
        (recompute plainGen storedScoreModule (fun (_ : Unit) => true) (some ())
          (exampleStore ["1"] ["1"])).store).store.top "1" = some 10 :=
  ⟨rfl, rfl, rfl, rfl⟩

/-- C6 as amended: when the score and rank computed for an item do not depend
on the score and rank fields and `news.top` entries the job writes (writing
them for any item leaves the result of read-and-compute unchanged for every
item), a second run of the handler right after the first leaves the store
exactly as the first run left it (every record, every `news.top` score, the
index), visits the same items with the same computed values, and ends the same
way. -/
theorem recompute_idempotent {N V U : Type} (h : HTMLGen) (m : NewsModule N V)
    (isAdmin : U → Bool) (user : Option U) (s : Store V)
    (hframe : ∀ (t : Store V) (i : String) (sc rk : V) (j : String),
      scoreRank m (writeItem t i sc rk) j = scoreRank m t j) :
    (recompute h m isAdmin user (recompute h m isAdmin user s).store).store
      = (recompute h m isAdmin user s).store ∧
    (recompute h m isAdmin user (recompute h m isAdmin user s).store).visits
      = (recompute h m isAdmin user s).visits ∧
    (recompute h m isAdmin user (recompute h m isAdmin user s).store).result
      = (recompute h m isAdmin user s).result := by
  cases user with
  | none => exact ⟨rfl, rfl, rfl⟩
  | some u =>
    by_cases hadmin : isAdmin u = true
    · have hstore : (recompute h m isAdmin (some u) s).store = (recomputeLoop m s.cron s).store := by
        rw [recompute_admin h m isAdmin u s hadmin]
        cases (recomputeLoop m s.cron s).error <;> rfl
      have hcron : (recomputeLoop m s.cron s).store.cron = s.cron := recomputeLoop_cron m _ s
      have hreplay := recomputeLoop_replay m hframe s.cron s (recomputeLoop m s.cron s).store
        (recomputeLoop_frame m hframe s.cron s) (recomputeLoop_absorbs_visits m hframe s.cron s)
      rw [hstore, recompute_admin h m isAdmin u _ hadmin, hcron, hreplay,
        recompute_admin h m isAdmin u s hadmin]
      cases (recomputeLoop m s.cron s).error <;> exact ⟨rfl, rfl, rfl⟩
    · have hna : isAdmin u = false := by simpa using hadmin
      simp [recompute, hna]

/-- C6 as amended, on an item with 5 votes and a stale score, score and rank
being derived from the votes: the second run leaves the persisted rank at 10. -/
theorem recompute_idempotent_witness :
    (recompute plainGen votesModule (fun (_ : Unit) => true) (some ())
        (recompute plainGen votesModule (fun (_ : Unit) => true) (some ())
          (exampleStore ["1"] ["1"])).store).store
      = (recompute plainGen votesModule (fun (_ : Unit) => true) (some ())
          (exampleStore ["1"] ["1"])).store ∧
    (recompute plainGen votesModule (fun (_ : Unit) => true) (some ())
        (exampleStore ["1"] ["1"])).store.hashes "news:1" "rank" = some 10 :=
  ⟨(recompute_idempotent plainGen votesModule (fun (_ : Unit) => true) (some ())
      (exampleStore ["1"] ["1"]) votesModule_frame).1, rfl⟩

/-! ## The random picker -/

theorem parseInt_counter (n : Int) : parseInt (.str (toString n)) = some n :=
  parseIntChars_toString n

/-- C8 does not hold on the code: with `news.count` at 1 and `_.random(1)`
returning 1 (it returns an integer from 0 to its argument, both included), the
drawn id is 2, above the counter; the handler then asks for `news:2`, which
does not exist, and redirects to the counter. -/
theorem getRandom_draws_above_counter :
    (getRandom "1" (fun n => n) (fun _ => false)).random = some 2 ∧
    (getRandom "1" (fun n => n) (fun _ => false)).checks = ["news:2"] ∧
    (getRandom "1" (fun n => n) (fun _ => false)).result = .redirect "/news/1" :=
  ⟨rfl, rfl, rfl⟩

/-- C9: for a counter `n ≥ 1` stored in decimal, every outcome of `_.random`
(in its range or not) and every existence predicate, the handler makes exactly one
existence check, on the key of the drawn id `1 + _random n`, and redirects to
`/news/<drawn id>` when that key exists and to `/news/<counter>` otherwise. Hence,
when only ids from 1 to `n` exist, the id it redirects to is between 1 and `n`. -/
theorem getRandom_falls_back (n : Int) (_random : Int → Int) (rExists : String → Bool)
    (hn : 1 ≤ n) :
    (getRandom (toString n) _random rExists).checks
      = ["news:" ++ toString (1 + _random n)] ∧
    (getRandom (toString n) _random rExists).result
      = .redirect (if rExists ("news:" ++ toString (1 + _random n))
          then "/news/" ++ toString (1 + _random n) else "/news/" ++ toString n) ∧
    ((∀ i : Int, rExists ("news:" ++ toString i) = true → 1 ≤ i ∧ i ≤ n) →
      ∃ c : Int, 1 ≤ c ∧ c ≤ n ∧
        (getRandom (toString n) _random rExists).result = .redirect ("/news/" ++ toString c)) := by
  have hrun : getRandom (toString n) _random rExists =
      ⟨some (1 + _random n), ["news:" ++ toString (1 + _random n)],
        .redirect (if rExists ("news:" ++ toString (1 + _random n))
          then "/news/" ++ toString (1 + _random n) else "/news/" ++ toString n)⟩ := by
    simp only [getRandom, parseInt_counter, Option.map_some', numToString]
  rw [hrun]
  refine ⟨rfl, rfl, fun hex => ?_⟩
  by_cases he : rExists ("news:" ++ toString (1 + _random n)) = true
  · exact ⟨1 + _random n, (hex _ he).1, (hex _ he).2, by simp [he]⟩
  · exact ⟨n, hn, le_refl n, by simp [he]⟩

/-- C9, the example of the specification: counter 1 and item 1 deleted; the
handler redirects to `/news/1`. -/
theorem getRandom_falls_back_witness :
    (1 : Int) ≤ 1 ∧
    (getRandom "1" (fun _ => 0) (fun _ => false)).checks = ["news:1"] ∧
    (getRandom "1" (fun _ => 0) (fun _ => false)).result = .redirect "/news/1" :=
  have hw := getRandom_falls_back 1 (fun _ => 0) (fun _ => false) (by decide)
  ⟨by decide, hw.1, hw.2.1⟩

/-! ## `checkParams` -/

theorem trimChars_eq_nil_iff (l : List Char) :
    trimChars l = [] ↔ ∀ c ∈ l, isJSSpace c = true := by
  unfold trimChars
  rw [List.rdropWhile_eq_nil_iff]
  constructor
  · intro hall
    by_cases hd : l.dropWhile isJSSpace = []
    · exact List.dropWhile_eq_nil_iff.mp hd
    · have h1 := List.head_dropWhile_not isJSSpace l hd
      have h2 := hall _ (List.head_mem hd)
      rw [h1] at h2
      exact absurd h2 (by decide)
  · intro hall x hx
    rw [List.dropWhile_eq_nil_iff.mpr hall] at hx
    exact absurd hx (List.not_mem_nil _)

theorem trimChars_trimChars_eq_nil_iff (l : List Char) :
    trimChars (trimChars l) = [] ↔ trimChars l = [] := by
  rw [trimChars_eq_nil_iff]
  constructor
  · intro hall
    have h := (List.rdropWhile_eq_nil_iff (p := isJSSpace)).mpr hall
    unfold trimChars at h ⊢
    rwa [List.rdropWhile_idempotent] at h
  · intro h c hc
    rw [h] at hc
    exact absurd hc (List.not_mem_nil _)

theorem truthy_trimVal_trimVal (v : ParamVal) :
    truthy (trimVal (trimVal v)) = truthy (trimVal v) := by
  cases v with
  | str s =>
    simp only [trimVal, truthy, jsTrim]
    have h := trimChars_trimChars_eq_nil_iff s.data
    by_cases he : trimChars s.data = []
    · simp [he, String.ext_iff, show trimChars [] = [] from rfl]
    · simp [he, mt h.mp he, String.ext_iff]
  | _ => rfl

theorem truthy_trimVal_of_not (v : ParamVal) (h : (truthy v && isString v) = false) :
    truthy (trimVal v) = truthy v := by
  cases v with
  | str s =>
    have hs : s = "" := by simpa [truthy, isString] using h
    subst hs
    rfl
  | _ => rfl

/-- The answer of `checkParams`: every required name holds a value that is
truthy once trimmed. -/
theorem checkParams_snd (required : List String) : ∀ params : String → ParamVal,
    ((checkParams params required).2 = true ↔
      ∀ p ∈ required, truthy (trimVal (params p)) = true) := by
  induction required with
  | nil => intro params; simp [checkParams]
  | cons p rest ih =>
    intro params
    rw [checkParams]
    by_cases hts : (truthy (params p) && isString (params p)) = true
    · simp only [hts, if_true]
      by_cases ht : truthy (trimVal (params p)) = true
      · simp only [ht, Bool.not_true, Bool.false_eq_true, if_false, List.mem_cons,
          forall_eq_or_imp, true_and]
        rw [ih]
        constructor
        · intro hall q hq
          have := hall q hq
          by_cases hqp : q = p
          · subst hqp; exact ht
          · simpa [hqp] using this
        · intro hall q hq
          by_cases hqp : q = p
          · subst hqp
            simp only [if_true]
            rw [truthy_trimVal_trimVal]; exact ht
          · simpa [hqp] using hall q hq
      · have htf : truthy (trimVal (params p)) = false := by simpa using ht
        simp [htf]
    · have hts' : (truthy (params p) && isString (params p)) = false := by simpa using hts
      have hsame := truthy_trimVal_of_not (params p) hts'
      simp only [hts', Bool.false_eq_true, if_false]
      by_cases ht : truthy (params p) = true
      · simp only [ht, Bool.not_true, Bool.false_eq_true, if_false, List.mem_cons,
          forall_eq_or_imp, hsame, true_and]
        exact ih params
      · have htf : truthy (params p) = false := by simpa using ht
        simp [htf, hsame]

/-- C10: the code departs from the claim, and from the comment above
`checkParams`, on two parameter objects in which every required name exists and
every required string value is non-empty. A required name whose value is the
number 0 is not a string, so only its existence should count, yet `checkParams`
answers false; a required string made of white space only is not empty, yet
`checkParams` answers false (it trims the string first). -/
theorem checkParams_rejects_present :
    (checkParams (paramsOf [("username", .str " "), ("password", .str "x")])
        ["username", "password"]).2 = false ∧
    (∀ p ∈ ["username", "password"],
      paramsOf [("username", .str " "), ("password", .str "x")] p ≠ .undefined ∧
      ∀ s, paramsOf [("username", .str " "), ("password", .str "x")] p = .str s → s ≠ "") ∧
    (checkParams (paramsOf [("username", .num 0), ("password", .str "x")])
        ["username", "password"]).2 = false ∧
    (∀ p ∈ ["username", "password"],
      paramsOf [("username", .num 0), ("password", .str "x")] p ≠ .undefined ∧
      ∀ s, paramsOf [("username", .num 0), ("password", .str "x")] p = .str s → s ≠ "") := by
  refine ⟨rfl, ?_, rfl, ?_⟩
  · intro p hp
    simp only [List.mem_cons, List.mem_singleton, List.not_mem_nil, or_false] at hp
    rcases hp with rfl | rfl
    · refine ⟨by decide, fun s hs => ?_⟩
      have h : s = " " := by
        have h' : ParamVal.str " " = ParamVal.str s := hs
        injection h' with h'
        exact h'.symm
      subst h; decide
    · refine ⟨by decide, fun s hs => ?_⟩
      have h : s = "x" := by
        have h' : ParamVal.str "x" = ParamVal.str s := hs
        injection h' with h'
        exact h'.symm
      subst h; decide
  · intro p hp
    simp only [List.mem_cons, List.mem_singleton, List.not_mem_nil, or_false] at hp
    rcases hp with rfl | rfl
    · exact ⟨by decide, fun s hs => by
        have h' : ParamVal.num 0 = ParamVal.str s := hs
        exact ParamVal.noConfusion h'⟩
    · refine ⟨by decide, fun s hs => ?_⟩
      have h : s = "x" := by
        have h' : ParamVal.str "x" = ParamVal.str s := hs
        injection h' with h'
        exact h'.symm
      subst h; decide

/-- What `checkParams` answers on every input: true exactly when every required
name holds a truthy value, a string value being trimmed of surrounding white
space first (the name is not missing, its value is not `null`, `false` or `0`,
and if it is a string it is non-empty after trimming). -/
theorem checkParams_true_iff (params : String → ParamVal) (required : List String) :
    (checkParams params required).2 = true ↔
      ∀ p ∈ required,
        match params p with
        | .undefined => False
        | .null => False
        | .bool b => b = true
        | .num n => n ≠ 0
        | .str s => jsTrim s ≠ ""
        | .obj => True := by
  rw [checkParams_snd]
  refine forall_congr' fun p => forall_congr' fun _ => ?_
  cases params p <;> simp [trimVal, truthy]

/-! ## `strElapsed` -/

theorem numElapsed_now (dateNow : Int) (hd0 : 0 ≤ dateNow) (hd1 : dateNow < 9007199254740992) :
    numElapsed dateNow none = .num (dateNow / 1000) := by
  have h1 : dateNow.natAbs < 9007199254740992 := by omega
  simp only [numElapsed, parseIntQuot]
  rw [if_pos ⟨by decide, h1, by decide⟩, Int.tdiv_eq_ediv hd0 (by decide)]

theorem strElapsed_seconds (dateNow t s : Int)
    (hd0 : 0 ≤ dateNow) (hd1 : dateNow < 9007199254740992)
    (hs : s = dateNow / 1000 - t) (hsafe : s.natAbs ≤ 9007199254740992) :
    numberOf (parseInt (jsSub (numElapsed dateNow none) (.num t))) = .num s := by
  have hsub : jsSub (numElapsed dateNow none) (.num t) = .num s := by
    rw [numElapsed_now dateNow hd0 hd1]
    have hs' : dateNow / 1000 + -t = s := by omega
    simp only [jsSub, toNumber, negNumber, addNumbers, ratOf, ofRat, Nat.cast_one, mul_one,
      hs', hsafe, and_self, if_true]
  rw [hsub, parseInt_num s hsafe, numberOf, ofRat_int s hsafe]

/-- The run of `strElapsed` once the unit is known: when `length` with `label`
is the first entry of the table not above the elapsed seconds `s`, the result
is built from the floor of `s / length`. -/
theorem strElapsed_unit (dateNow t s length : Int) (label : String)
    (rest : List (Int × String))
    (hd0 : 0 ≤ dateNow) (hd1 : dateNow < 9007199254740992)
    (hs : s = dateNow / 1000 - t) (h2 : 2 ≤ s) (hs1 : s < 9007199254740992)
    (hlen : 0 < length) (hlen' : length ≤ 1000000)
    (hfilter : time_lengths.filter (fun item => jsGeNum (.num s) item.1)
      = (length, label) :: rest) :
    strElapsed dateNow (.num t) =
      .ok (toString (s / length) ++ " " ++ label ++
        (if 1 < s / length then "s" else "") ++ " ago") := by
  have hsafe : s.natAbs ≤ 9007199254740992 := by omega
  have hsec := strElapsed_seconds dateNow t s hd0 hd1 hs hsafe
  have hle : jsLeNum (.num s) 1 = false := by
    simp only [jsLeNum, toNumber, decide_eq_false_iff_not]
    omega
  have hq0 : 0 ≤ s / length := Int.ediv_nonneg (by omega) (by omega)
  have hq1 : s / length ≤ s := Int.ediv_le_self _ (by omega)
  have hq : parseIntQuot (.num s) (.num length) = .num (s / length) := by
    simp only [parseIntQuot]
    rw [if_pos ⟨by omega, by omega, by omega⟩, Int.tdiv_eq_ediv (by omega) (by omega)]
  have hqs : (s / length).natAbs ≤ 9007199254740992 := by omega
  unfold strElapsed
  simp only [hsec]
  simp only [hle, hfilter, hq, jsToString, if_pos hqs, jsGtNum, toNumber,
    Bool.false_eq_true, if_false]
  by_cases hn : 1 < s / length
  · simp [hn]
  · simp [hn]

/-- C11 fails on the code once the elapsed time reaches `1e21` seconds. With
`Date.now()` at 1700003840000 ms and `t` the number value
-999999999998299996160, `now` is 1700003840 and `s = now - t` is `1e21`, which
is at least 2; the code prints it as `1e+21`, `parseInt` reads 1, and the
result is `now` instead of a count of days. -/
theorem strElapsed_huge_elapsed :
    ofRat (-999999999998299996160) 1 = .num (-999999999998299996160) ∧
    numElapsed 1700003840000 none = .num 1700003840 ∧
    (1700003840000 : Int) / 1000 - (-999999999998299996160) = 1000000000000000000000 ∧
    strElapsed 1700003840000 (.num (-999999999998299996160)) = .ok "now" :=
  ⟨rfl, rfl, by decide, rfl⟩

/-- C11 as amended: for `Date.now()` from 0 to below `2 ^ 53` milliseconds, `t`
an integer of magnitude at most `2 ^ 53`, `now` the floor of `Date.now() / 1000`
and `s = now - t` below `2 ^ 53`: if `s <= 1` the result is `now`; if `s >= 2`
the unit lookup succeeds and the result is `<n> <unit> ago`, with an `s` after
the unit exactly when `n > 1`, where the unit is `day` (length 86400) from
86400 seconds on, `hour` (3600) from 3600 to 86399, `minute` (60) from 60 to
3599 and `second` (1) from 2 to 59, and `n` is the floor of `s / length`, which
is at least 1. -/
theorem strElapsed_states_elapsed (dateNow t s : Int)
    (hd0 : 0 ≤ dateNow) (hd1 : dateNow < 9007199254740992)
    (ht : t.natAbs ≤ 9007199254740992)
    (hs : s = dateNow / 1000 - t) (hs1 : s < 9007199254740992) :
    (s ≤ 1 → strElapsed dateNow (.num t) = .ok "now") ∧
    (86400 ≤ s → 1 ≤ s / 86400 ∧ strElapsed dateNow (.num t) =
      .ok (toString (s / 86400) ++ " " ++ "day" ++
        (if 1 < s / 86400 then "s" else "") ++ " ago")) ∧
    (3600 ≤ s → s < 86400 → 1 ≤ s / 3600 ∧ strElapsed dateNow (.num t) =
      .ok (toString (s / 3600) ++ " " ++ "hour" ++
        (if 1 < s / 3600 then "s" else "") ++ " ago")) ∧
    (60 ≤ s → s < 3600 → 1 ≤ s / 60 ∧ strElapsed dateNow (.num t) =
      .ok (toString (s / 60) ++ " " ++ "minute" ++
        (if 1 < s / 60 then "s" else "") ++ " ago")) ∧
    (2 ≤ s → s < 60 → 1 ≤ s / 1 ∧ strElapsed dateNow (.num t) =
      .ok (toString (s / 1) ++ " " ++ "second" ++
        (if 1 < s / 1 then "s" else "") ++ " ago")) := by
  refine ⟨?_, ?_, ?_, ?_, ?_⟩
  · intro h1
    have hsafe : s.natAbs ≤ 9007199254740992 := by omega
    have hsec := strElapsed_seconds dateNow t s hd0 hd1 hs hsafe
    have hle : jsLeNum (.num s) 1 = true := by simp [jsLeNum, toNumber, h1]
    unfold strElapsed
    simp only [hsec]
    simp only [hle, if_true]
  · intro hd
    refine ⟨by omega, strElapsed_unit dateNow t s 86400 "day"
      [(3600, "hour"), (60, "minute"), (1, "second")] hd0 hd1 hs (by omega) hs1
      (by decide) (by decide) ?_⟩
    have h1 : (3600 : Int) ≤ s := by omega
    have h3 : (60 : Int) ≤ s := by omega
    have h4 : (1 : Int) ≤ s := by omega
    simp [time_lengths, List.filter, jsGeNum, toNumber, hd, h1, h3, h4]
  · intro hh hd
    refine ⟨by omega, strElapsed_unit dateNow t s 3600 "hour"
      [(60, "minute"), (1, "second")] hd0 hd1 hs (by omega) hs1
      (by decide) (by decide) ?_⟩
    have hd' : ¬ (86400 : Int) ≤ s := by omega
    have h3 : (60 : Int) ≤ s := by omega
    have h4 : (1 : Int) ≤ s := by omega
    simp [time_lengths, List.filter, jsGeNum, toNumber, hd', hh, h3, h4]
  · intro hm hh
    refine ⟨by omega, strElapsed_unit dateNow t s 60 "minute"
      [(1, "second")] hd0 hd1 hs (by omega) hs1 (by decide) (by decide) ?_⟩
    have hd' : ¬ (86400 : Int) ≤ s := by omega
    have hh' : ¬ (3600 : Int) ≤ s := by omega
    have h4 : (1 : Int) ≤ s := by omega
    simp [time_lengths, List.filter, jsGeNum, toNumber, hd', hh', hm, h4]
  · intro h2 hm
    refine ⟨by omega, strElapsed_unit dateNow t s 1 "second"
      [] hd0 hd1 hs h2 hs1 (by decide) (by decide) ?_⟩
    have hd' : ¬ (86400 : Int) ≤ s := by omega
    have hh' : ¬ (3600 : Int) ≤ s := by omega
    have hm' : ¬ (60 : Int) ≤ s := by omega
    have h4 : (1 : Int) ≤ s := by omega
    simp [time_lengths, List.filter, jsGeNum, toNumber, hd', hh', hm', h4]

/-- C11 as amended, the example of the documentation: 7200 seconds after `t`
the result is `2 hours ago`. -/
theorem strElapsed_states_elapsed_witness :
    ((0 : Int) ≤ 1700000000123 ∧ (1700000000123 : Int) < 9007199254740992 ∧
      (1699992800 : Int).natAbs ≤ 9007199254740992 ∧
      (7200 : Int) = 1700000000123 / 1000 - 1699992800 ∧
      (7200 : Int) < 9007199254740992 ∧ (3600 : Int) ≤ 7200 ∧ (7200 : Int) < 86400) ∧
    strElapsed 1700000000123 (.num 1699992800) = .ok "2 hours ago" :=
  ⟨⟨by decide, by decide, by decide, by decide, by decide, by decide, by decide⟩,
   ((strElapsed_states_elapsed 1700000000123 1699992800 7200 (by decide) (by decide)
      (by decide) (by decide) (by decide)).2.2.1 (by decide) (by decide)).2.trans rfl⟩

end Jsernews
